import Mathlib

/-!
Shallow embedding of the agora forum engine (agora/models.py): the entity
store, the counter-propagation engine, the reconciliation service, the
edit-window policy, and the subscription handlers.  Database rows are
modelled as association lists keyed by ids; timestamps are integers
(minutes); `IntegerField` counters are integers (they may drift to any
value).  Django's lazy recursion up the forum parent chain is modelled
with explicit fuel.
-/

namespace Agora

/-- A `Forum` row (models.py, class Forum): optional parent forum,
denormalized `last_modified`, `last_reply`, `view_count`, `reply_count`. -/
structure Forum where
  parent : Option Nat
  last_modified : Int
  last_reply : Option Nat
  view_count : Int
  reply_count : Int
deriving Repr, DecidableEq

/-- A `ForumThread` row (models.py, class ForumThread): owning forum,
author, creation time, and the denormalized counters. -/
structure Thread where
  forum : Nat
  author : Nat
  created : Int
  last_modified : Int
  last_reply : Option Nat
  view_count : Int
  reply_count : Int
  subscriber_count : Int
deriving Repr, DecidableEq

/-- A `ForumReply` row (models.py, class ForumReply): id, owning thread,
author, creation time. -/
structure Reply where
  id : Nat
  thread : Nat
  author : Nat
  created : Int
deriving Repr, DecidableEq

/-- The database state: forums and threads keyed by id, the reply rows,
the `ThreadSubscription` rows as (thread, user) pairs, and the
`UserPostCount` rows keyed by user. -/
structure DB where
  forums : List (Nat × Forum)
  threads : List (Nat × Thread)
  replies : List Reply
  subs : List (Nat × Nat)
  postCounts : List (Nat × Int)
deriving Repr, DecidableEq

/-- Association-list lookup by key (first matching row wins). -/
def lookupL {α : Type} : List (Nat × α) → Nat → Option α
  | [], _ => none
  | p :: l, k => if p.1 = k then some p.2 else lookupL l k

/-- Association-list in-place row update: every row with key `k` is
rewritten by `f`. -/
def updateL {α : Type} (l : List (Nat × α)) (k : Nat) (f : α → α) : List (Nat × α) :=
  l.map (fun p => if p.1 = k then (p.1, f p.2) else p)

theorem lookupL_updateL_self {α : Type} (l : List (Nat × α)) (k : Nat) (f : α → α) :
    lookupL (updateL l k f) k = (lookupL l k).map f := by
  induction l with
  | nil => rfl
  | cons p l ih =>
    by_cases h : p.1 = k <;> simp [updateL, lookupL, h] at ih ⊢ <;> simpa [updateL] using ih

theorem lookupL_updateL_ne {α : Type} (l : List (Nat × α)) (k k' : Nat) (f : α → α)
    (h : k' ≠ k) : lookupL (updateL l k f) k' = lookupL l k' := by
  induction l with
  | nil => rfl
  | cons p l ih =>
    unfold updateL lookupL
    simp only [List.map_cons]
    by_cases hp : p.1 = k
    · have hne : p.1 ≠ k' := by rw [hp]; exact fun hc => h hc.symm
      rw [if_pos hp]
      show (if p.1 = k' then _ else _) = _
      rw [if_neg hne, if_neg hne]
      exact ih
    · rw [if_neg hp]
      show (if p.1 = k' then _ else _) = _
      by_cases hp' : p.1 = k'
      · rw [if_pos hp', if_pos hp']
      · rw [if_neg hp', if_neg hp']
        exact ih

theorem updateL_eq_self {α : Type} (l : List (Nat × α)) (k : Nat) (f : α → α)
    (h : ∀ p ∈ l, p.1 = k → f p.2 = p.2) : updateL l k f = l := by
  induction l with
  | nil => rfl
  | cons p l ih =>
    unfold updateL
    simp only [List.map_cons]
    by_cases hp : p.1 = k
    · rw [if_pos hp, h p (by simp) hp]
      have := ih (fun q hq hqk => h q (by simp [hq]) hqk)
      unfold updateL at this
      simp [this]
    · rw [if_neg hp]
      have := ih (fun q hq hqk => h q (by simp [hq]) hqk)
      unfold updateL at this
      simp [this]

theorem lookupL_cons_self {α : Type} (k : Nat) (v : α) (l : List (Nat × α)) :
    lookupL ((k, v) :: l) k = some v := by
  unfold lookupL
  rw [if_pos rfl]

theorem lookupL_cons_ne {α : Type} (k k' : Nat) (v : α) (l : List (Nat × α)) (h : k ≠ k') :
    lookupL ((k, v) :: l) k' = lookupL l k' := by
  show (if k = k' then some v else lookupL l k') = lookupL l k'
  rw [if_neg h]

theorem lookupL_isSome_updateL {α : Type} (l : List (Nat × α)) (k k' : Nat) (f : α → α) :
    (lookupL (updateL l k f) k').isSome = (lookupL l k').isSome := by
  by_cases h : k' = k
  · subst h; rw [lookupL_updateL_self]; cases lookupL l k' <;> rfl
  · rw [lookupL_updateL_ne _ _ _ _ h]

theorem updateL_map_shape {α β : Type} (l : List (Nat × α)) (k : Nat) (f : α → α) (g : α → β)
    (hf : ∀ a, g (f a) = g a) :
    (updateL l k f).map (fun p => (p.1, g p.2)) = l.map (fun p => (p.1, g p.2)) := by
  induction l with
  | nil => rfl
  | cons p l ih =>
    unfold updateL at ih ⊢
    simp only [List.map_cons]
    by_cases hp : p.1 = k
    · rw [if_pos hp]
      simp only [hf]
      rw [ih]
    · rw [if_neg hp, ih]

theorem lookupL_map_eq {α β : Type} (g : α → β) (l1 l2 : List (Nat × α))
    (h : l1.map (fun p => (p.1, g p.2)) = l2.map (fun p => (p.1, g p.2))) (k : Nat) :
    (lookupL l1 k).map g = (lookupL l2 k).map g := by
  induction l1 generalizing l2 with
  | nil =>
    cases l2 with
    | nil => rfl
    | cons q l2 => exact nomatch h
  | cons p l1 ih =>
    cases l2 with
    | nil => exact nomatch h
    | cons q l2 =>
      injection h with h1 h2
      have h1' : (p.1, g p.2) = (q.1, g q.2) := h1
      have hk : p.1 = q.1 := congrArg (fun x => x.1) h1'
      have hg : g p.2 = g q.2 := congrArg (fun x => x.2) h1'
      by_cases hpk : p.1 = k
      · have hqk : q.1 = k := hk ▸ hpk
        show (if p.1 = k then some p.2 else lookupL l1 k).map g
          = (if q.1 = k then some q.2 else lookupL l2 k).map g
        rw [if_pos hpk, if_pos hqk]
        show some (g p.2) = some (g q.2)
        rw [hg]
      · have hqk : ¬q.1 = k := fun hc => hpk (by rw [hk, hc])
        show (if p.1 = k then some p.2 else lookupL l1 k).map g
          = (if q.1 = k then some q.2 else lookupL l2 k).map g
        rw [if_neg hpk, if_neg hqk]
        exact ih l2 h2

theorem list_all_congr {α : Type} (l : List α) (f g : α → Bool)
    (h : ∀ a ∈ l, f a = g a) : l.all f = l.all g := by
  induction l with
  | nil => rfl
  | cons x l ih =>
    simp only [List.all_cons]
    rw [h x (by simp), ih (fun a ha => h a (by simp [ha]))]

theorem filter_map_keys_eq {α β : Type} (g : α → β) (q : β → Bool) (l1 l2 : List (Nat × α))
    (h : l1.map (fun p => (p.1, g p.2)) = l2.map (fun p => (p.1, g p.2))) :
    (l1.filter (fun p => q (g p.2))).map (fun p => p.1)
      = (l2.filter (fun p => q (g p.2))).map (fun p => p.1) := by
  induction l1 generalizing l2 with
  | nil =>
    cases l2 with
    | nil => rfl
    | cons _ _ => exact nomatch h
  | cons p l1 ih =>
    cases l2 with
    | nil => exact nomatch h
    | cons r l2 =>
      injection h with h1 h2
      have h1' : (p.1, g p.2) = (r.1, g r.2) := h1
      have hk : p.1 = r.1 := congrArg (fun x => x.1) h1'
      have hg : g p.2 = g r.2 := congrArg (fun x => x.2) h1'
      simp only [List.filter_cons]
      rw [hg]
      by_cases hq : q (g r.2) = true
      · rw [if_pos hq, if_pos hq]
        simp only [List.map_cons]
        rw [hk, ih l2 h2]
      · rw [if_neg hq, if_neg hq]
        exact ih l2 h2

/-- The subforums of forum `fid` (models.py: the reverse FK `subforums`,
rows of `forums` whose `parent` is `fid`), as ids in row order. -/
def subforumIds (s : DB) (fid : Nat) : List Nat :=
  (s.forums.filter (fun p => p.2.parent == some fid)).map (fun p => p.1)

/-- The threads of forum `fid` (models.py: the reverse FK `threads`). -/
def threadIds (s : DB) (fid : Nat) : List Nat :=
  (s.threads.filter (fun p => p.2.forum == fid)).map (fun p => p.1)

/-- `thread.replies.all().count()`: number of reply rows of thread `tid`. -/
def countReplies (s : DB) (tid : Nat) : Int :=
  ((s.replies.filter (fun r => r.thread == tid)).length : Int)

/-- `thread.subscriptions.count()`: number of subscription rows of thread `tid`. -/
def countSubs (s : DB) (tid : Nat) : Int :=
  ((s.subs.filter (fun p => p.1 == tid)).length : Int)

/-- The stored `reply_count` of forum `fid` (0 if the row is absent). -/
def rcF (s : DB) (fid : Nat) : Int :=
  ((lookupL s.forums fid).map Forum.reply_count).getD 0

/-- The stored `reply_count` of thread `tid` (0 if the row is absent). -/
def rcT (s : DB) (tid : Nat) : Int :=
  ((lookupL s.threads tid).map Thread.reply_count).getD 0

/-- `Forum.inc_views` (models.py 65-67): `self.view_count += 1; self.save()`. -/
def Forum.inc_views (s : DB) (fid : Nat) : DB :=
  { s with forums := updateL s.forums fid (fun f => { f with view_count := f.view_count + 1 }) }

/-- The `self.view_count += 1; self.save()` write of
`ForumThread.inc_views` (models.py 143-144). -/
def bumpThreadView (s : DB) (tid : Nat) : DB :=
  { s with threads := updateL s.threads tid (fun u => { u with view_count := u.view_count + 1 }) }

/-- `ForumThread.inc_views` (models.py 142-145): bump own view_count, save,
then bump the owning forum's view_count (one level, no recursion). -/
def Thread.inc_views (s : DB) (tid : Nat) : DB :=
  match lookupL s.threads tid with
  | none => s
  | some t => Forum.inc_views (bumpThreadView s tid) t.forum

/-- `ForumThread.update_reply_count` (models.py 147-149):
`self.reply_count = self.replies.all().count(); self.save()`. -/
def Thread.update_reply_count (s : DB) (tid : Nat) : DB :=
  { s with threads := updateL s.threads tid (fun t => { t with reply_count := countReplies s tid }) }

/-- Write `v` into forum `fid`'s stored `reply_count` (the final
`self.reply_count = reply_count; self.save()` of `Forum.update_reply_count`). -/
def setForumRC (s : DB) (fid : Nat) (v : Int) : DB :=
  { s with forums := updateL s.forums fid (fun f => { f with reply_count := v }) }

/-- One reconciliation loop of `Forum.update_reply_count` (models.py 79-84):
for each id in `l`, run the reconciliation step `g` on the current state and
add the reconciled counter `v` of that row to the running total. -/
def accumFold (g : DB → Nat → DB) (v : DB → Nat → Int) (l : List Nat) (acc : DB × Int) :
    DB × Int :=
  l.foldl (fun acc x => (g acc.1 x, acc.2 + v (g acc.1 x) x)) acc

/-- `Forum.update_reply_count` (models.py 77-86): recursively reconcile each
subforum and accumulate its (now-correct) count, then reconcile each thread
and accumulate, then store the sum.  The recursion up the object graph is
bounded by explicit `fuel`. -/
def Forum.update_reply_count : Nat → DB → Nat → DB
  | 0, s, _ => s
  | fuel+1, s, fid =>
    let p := accumFold (Forum.update_reply_count fuel) rcF (subforumIds s fid) (s, (0 : Int))
    let q := accumFold Thread.update_reply_count rcT (threadIds p.1 fid) p
    setForumRC q.1 fid q.2

/-- The row-level effect of `Forum.new_reply` on the forum it saves
(models.py 89-92): `reply_count += 1`, `last_modified = reply.created`,
`last_reply = reply`. -/
def bump1F (r : Reply) (g : Forum) : Forum :=
  { g with reply_count := g.reply_count + 1,
           last_modified := r.created, last_reply := some r.id }

/-- The row-level effect of `ForumThread.new_reply` on the thread it saves
(models.py 156-159). -/
def bump1T (r : Reply) (u : Thread) : Thread :=
  { u with reply_count := u.reply_count + 1,
           last_modified := r.created, last_reply := some r.id }

/-- The field writes of `Forum.new_reply` before the recursive parent call. -/
def bumpForum (s : DB) (fid : Nat) (r : Reply) : DB :=
  { s with forums := updateL s.forums fid (bump1F r) }

/-- The field writes of `ForumThread.new_reply` before the forum call. -/
def bumpThread (s : DB) (tid : Nat) (r : Reply) : DB :=
  { s with threads := updateL s.threads tid (bump1T r) }

/-- `Forum.new_reply` (models.py 88-94): increment `reply_count`, set
`last_modified`/`last_reply`, save, and recurse on the parent forum if any. -/
def Forum.new_reply : Nat → DB → Nat → Reply → DB
  | 0, s, _, _ => s
  | fuel+1, s, fid, r =>
    match lookupL s.forums fid with
    | none => s
    | some f =>
      match f.parent with
      | none => bumpForum s fid r
      | some pr => Forum.new_reply fuel (bumpForum s fid r) pr r

/-- `ForumThread.new_reply` (models.py 155-160): increment `reply_count`,
set `last_modified`/`last_reply`, save, then `self.forum.new_reply(reply)`. -/
def Thread.new_reply (fuel : Nat) (s : DB) (tid : Nat) (r : Reply) : DB :=
  match lookupL s.threads tid with
  | none => s
  | some t => Forum.new_reply fuel (bumpThread s tid r) t.forum r

/-- The fields of the abstract base `ForumPost` that `editable` reads. -/
structure Post where
  author : Nat
  created : Int
deriving Repr, DecidableEq

/-- `ForumPost.editable` (models.py 111-115): author may edit within 30
minutes of creation.  Time is in minutes; `now` is passed explicitly. -/
def ForumPost.editable (p : Post) (user : Nat) (now : Int) : Bool :=
  if user = p.author then
    if now < p.created + 30 then true else false
  else false

/-- `ForumThread.update_subscriber_count` (models.py 151-153). -/
def Thread.update_subscriber_count (s : DB) (tid : Nat) : DB :=
  { s with threads := updateL s.threads tid (fun t => { t with subscriber_count := countSubs s tid }) }

/-- `ForumThread.subscribe` (models.py 162-166):
`ThreadSubscription.objects.get_or_create(thread=self, user=user)`.  When a
row is created, the `post_save` signal runs `forum_subscription_update`
(models.py 241-245) with `created = True`, which recomputes the thread's
`subscriber_count`; when the row already exists nothing is saved and no
signal fires. -/
def Thread.subscribe (s : DB) (tid uid : Nat) : DB :=
  if (tid, uid) ∈ s.subs then s
  else
    let s' := { s with subs := (tid, uid) :: s.subs }
    Thread.update_subscriber_count s' tid

/-- `ForumThread.unsubscribe` (models.py 168-174): fetch the subscription
row; on `DoesNotExist` return silently; otherwise delete the row.  The
`post_delete` signal runs `forum_subscription_update` with `created`
defaulting to `False`, so the handler does nothing on deletion. -/
def Thread.unsubscribe (s : DB) (tid uid : Nat) : DB :=
  if (tid, uid) ∈ s.subs then
    { s with subs := s.subs.erase (tid, uid) }
  else s

/-- The `UserPostCount` upsert of `forum_reply_save` (models.py 236-238):
`get_or_create(user=...)` (default `count = 0`), `count += 1`, `save()`. -/
def upsertPostCount (s : DB) (a : Nat) : DB :=
  match lookupL s.postCounts a with
  | none => { s with postCounts := (a, 1) :: s.postCounts }
  | some c => { s with postCounts := updateL s.postCounts a (fun _ => c + 1) }

/-- `forum_reply_save` (models.py 229-238), the `post_save` handler for a
newly created `ForumReply`: run `thread.new_reply(instance)`, then upsert
the author's `UserPostCount`. -/
def forum_reply_save (fuel : Nat) (s : DB) (r : Reply) : DB :=
  upsertPostCount (Thread.new_reply fuel s r.thread r) r.author

/-- The ancestor chain `[fid, parent, ..., root]` of forum `fid`, following
`parent` links; `none` when a link dangles or `fuel` runs out (cycle). -/
def forumChain : Nat → DB → Nat → Option (List Nat)
  | 0, _, _ => none
  | fuel+1, s, fid =>
    match lookupL s.forums fid with
    | none => none
    | some f =>
      match f.parent with
      | none => some [fid]
      | some pr => (forumChain fuel s pr).map (fun l => fid :: l)

/-- The forum subtree below `fid` has depth < `fuel` (downward along the
`subforums` relation). -/
def subtreeDepthOk : Nat → DB → Nat → Bool
  | 0, _, _ => false
  | fuel+1, s, fid => (subforumIds s fid).all (fun sf => subtreeDepthOk fuel s sf)

/-- The true number of reply rows under forum `fid`'s full subtree: replies
of its own threads plus, recursively, of all subforums' threads. -/
def subtreeReplies : Nat → DB → Nat → Int
  | 0, _, _ => 0
  | fuel+1, s, fid =>
    ((subforumIds s fid).map (fun sf => subtreeReplies fuel s sf)).sum
      + ((threadIds s fid).map (fun tid => countReplies s tid)).sum

theorem new_reply_succ_eq (fuel : Nat) (s : DB) (fid : Nat) (r : Reply) :
    Forum.new_reply (fuel + 1) s fid r =
      (match lookupL s.forums fid with
       | none => s
       | some f =>
         match f.parent with
         | none => bumpForum s fid r
         | some pr => Forum.new_reply fuel (bumpForum s fid r) pr r) := rfl

theorem new_reply_missing (fuel : Nat) (s : DB) (fid : Nat) (r : Reply)
    (hf : lookupL s.forums fid = none) :
    Forum.new_reply (fuel + 1) s fid r = s := by
  rw [new_reply_succ_eq, hf]

theorem new_reply_root (fuel : Nat) (s : DB) (fid : Nat) (r : Reply) (f : Forum)
    (hf : lookupL s.forums fid = some f) (hp : f.parent = none) :
    Forum.new_reply (fuel + 1) s fid r = bumpForum s fid r := by
  rw [new_reply_succ_eq, hf]
  show (match f.parent with
        | none => bumpForum s fid r
        | some pr => Forum.new_reply fuel (bumpForum s fid r) pr r) = _
  rw [hp]

theorem new_reply_parent (fuel : Nat) (s : DB) (fid : Nat) (r : Reply) (f : Forum) (pr : Nat)
    (hf : lookupL s.forums fid = some f) (hp : f.parent = some pr) :
    Forum.new_reply (fuel + 1) s fid r = Forum.new_reply fuel (bumpForum s fid r) pr r := by
  rw [new_reply_succ_eq, hf]
  show (match f.parent with
        | none => bumpForum s fid r
        | some pr => Forum.new_reply fuel (bumpForum s fid r) pr r) = _
  rw [hp]

theorem thread_new_reply_eq (fuel : Nat) (s : DB) (tid : Nat) (r : Reply) (t : Thread)
    (ht : lookupL s.threads tid = some t) :
    Thread.new_reply fuel s tid r = Forum.new_reply fuel (bumpThread s tid r) t.forum r := by
  unfold Thread.new_reply
  rw [ht]

theorem new_reply_forum_frame (fuel : Nat) (s : DB) (fid : Nat) (r : Reply) :
    (Forum.new_reply fuel s fid r).threads = s.threads
    ∧ (Forum.new_reply fuel s fid r).replies = s.replies
    ∧ (Forum.new_reply fuel s fid r).subs = s.subs
    ∧ (Forum.new_reply fuel s fid r).postCounts = s.postCounts := by
  induction fuel generalizing s fid with
  | zero => exact ⟨rfl, rfl, rfl, rfl⟩
  | succ fuel ih =>
    cases hf : lookupL s.forums fid with
    | none => rw [new_reply_missing fuel s fid r hf]; exact ⟨rfl, rfl, rfl, rfl⟩
    | some f =>
      cases hp : f.parent with
      | none => rw [new_reply_root fuel s fid r f hf hp]; exact ⟨rfl, rfl, rfl, rfl⟩
      | some pr => rw [new_reply_parent fuel s fid r f pr hf hp]; exact ih _ pr

theorem new_reply_thread_frame (fuel : Nat) (s : DB) (tid : Nat) (r : Reply) :
    (Thread.new_reply fuel s tid r).replies = s.replies
    ∧ (Thread.new_reply fuel s tid r).subs = s.subs
    ∧ (Thread.new_reply fuel s tid r).postCounts = s.postCounts := by
  unfold Thread.new_reply
  cases ht : lookupL s.threads tid with
  | none => exact ⟨rfl, rfl, rfl⟩
  | some t =>
    have h := new_reply_forum_frame fuel (bumpThread s tid r) t.forum r
    exact ⟨h.2.1, h.2.2.1, h.2.2.2⟩

/-- C3: `ForumPost.editable` returns true iff the actor is the author and
the current time is strictly before `created + 30` minutes; in particular
it returns false for every non-author regardless of time.  (It is a Lean
function of the post, the actor and the clock value, hence side-effect
free by construction.) -/
theorem editable_iff_author_and_window (p : Post) (user : Nat) (now : Int) :
    (ForumPost.editable p user now = true ↔ user = p.author ∧ now < p.created + 30)
    ∧ (user ≠ p.author → ForumPost.editable p user now = false) := by
  constructor
  · unfold ForumPost.editable
    by_cases h : user = p.author
    · by_cases h2 : now < p.created + 30 <;> simp [h, h2]
    · simp [h]
  · intro h
    unfold ForumPost.editable
    simp [h]

theorem editable_iff_author_and_window_witness :
    ((ForumPost.editable ⟨5, 0⟩ 5 10 = true ↔ 5 = 5 ∧ (10 : Int) < 0 + 30)
      ∧ (5 ≠ 5 → ForumPost.editable ⟨5, 0⟩ 5 10 = false))
    ∧ ((ForumPost.editable ⟨5, 0⟩ 6 1 = true ↔ 6 = 5 ∧ (1 : Int) < 0 + 30)
      ∧ (6 ≠ 5 → ForumPost.editable ⟨5, 0⟩ 6 1 = false)) :=
  ⟨editable_iff_author_and_window ⟨5, 0⟩ 5 10, editable_iff_author_and_window ⟨5, 0⟩ 6 1⟩

/-- C7: unsubscribing a user that has no subscription to the thread is a
silent no-op: the whole state (counters included) is returned unchanged
and no error is raised. -/
theorem unsubscribe_not_subscribed_noop (s : DB) (tid uid : Nat)
    (h : (tid, uid) ∉ s.subs) : Thread.unsubscribe s tid uid = s := by
  unfold Thread.unsubscribe
  simp [h]

/-- An empty database, used to instantiate hypothesis-bearing theorems. -/
def emptyDB : DB := { forums := [], threads := [], replies := [], subs := [], postCounts := [] }

/-- A database whose only row is a subscription of user 4 to thread 3. -/
def oneSubDB : DB := { forums := [], threads := [], replies := [], subs := [(3, 4)], postCounts := [] }

theorem unsubscribe_not_subscribed_noop_witness :
    Thread.unsubscribe oneSubDB 3 9 = oneSubDB :=
  unsubscribe_not_subscribed_noop oneSubDB 3 9 (by decide)

theorem upsert_post_count_spec (s : DB) (a : Nat) :
    (lookupL s.postCounts a = none →
      lookupL (upsertPostCount s a).postCounts a = some 1)
    ∧ (∀ c, lookupL s.postCounts a = some c →
      lookupL (upsertPostCount s a).postCounts a = some (c + 1))
    ∧ (∀ u, u ≠ a →
      lookupL (upsertPostCount s a).postCounts u = lookupL s.postCounts u) := by
  unfold upsertPostCount
  cases hl : lookupL s.postCounts a with
  | none =>
    refine ⟨fun _ => ?_, fun c hc => ?_, fun u hu => ?_⟩
    · show lookupL ((a, 1) :: s.postCounts) a = some 1
      unfold lookupL
      rw [if_pos rfl]
    · exact nomatch hc
    · show lookupL ((a, 1) :: s.postCounts) u = lookupL s.postCounts u
      exact lookupL_cons_ne _ _ _ _ (fun hc => hu hc.symm)
  | some c0 =>
    refine ⟨fun hc => ?_, fun c hc => ?_, fun u hu => ?_⟩
    · exact nomatch hc
    · obtain rfl : c0 = c := Option.some.inj hc
      show lookupL (updateL s.postCounts a (fun _ => c0 + 1)) a = some (c0 + 1)
      rw [lookupL_updateL_self, hl]
      rfl
    · show lookupL (updateL s.postCounts a (fun _ => c0 + 1)) u = lookupL s.postCounts u
      exact lookupL_updateL_ne _ _ _ _ hu

/-- C8: `forum_reply_save` upserts the author's `UserPostCount`: a missing
row is created ending at count 1, an existing row is incremented by exactly
1, other users' rows are untouched, and this happens exactly once per call. -/
theorem reply_save_post_count (fuel : Nat) (s : DB) (r : Reply) :
    (lookupL s.postCounts r.author = none →
      lookupL (forum_reply_save fuel s r).postCounts r.author = some 1)
    ∧ (∀ c, lookupL s.postCounts r.author = some c →
      lookupL (forum_reply_save fuel s r).postCounts r.author = some (c + 1))
    ∧ (∀ u, u ≠ r.author →
      lookupL (forum_reply_save fuel s r).postCounts u = lookupL s.postCounts u) := by
  have hpc : (Thread.new_reply fuel s r.thread r).postCounts = s.postCounts :=
    (new_reply_thread_frame fuel s r.thread r).2.2
  have h := upsert_post_count_spec (Thread.new_reply fuel s r.thread r) r.author
  rw [hpc] at h
  unfold forum_reply_save
  exact h

theorem reply_save_post_count_witness :
    (lookupL emptyDB.postCounts 5 = none →
      lookupL (forum_reply_save 3 emptyDB ⟨100, 10, 5, 2⟩).postCounts 5 = some 1)
    ∧ (∀ c, lookupL emptyDB.postCounts 5 = some c →
      lookupL (forum_reply_save 3 emptyDB ⟨100, 10, 5, 2⟩).postCounts 5 = some (c + 1))
    ∧ (∀ u, u ≠ 5 →
      lookupL (forum_reply_save 3 emptyDB ⟨100, 10, 5, 2⟩).postCounts u
        = lookupL emptyDB.postCounts u) :=
  reply_save_post_count 3 emptyDB ⟨100, 10, 5, 2⟩

/-- C9: `ForumThread.inc_views` increments the thread's `view_count` by
exactly 1 and the owning forum's `view_count` by exactly 1, and changes
nothing else: other threads and forums are untouched (in particular every
forum other than the owning one, so the parent chain), and no
`reply_count`, `last_modified` or `last_reply` field changes anywhere. -/
theorem inc_views_one_level (s : DB) (tid : Nat) (t : Thread)
    (ht : lookupL s.threads tid = some t) :
    lookupL (Thread.inc_views s tid).threads tid
      = some { t with view_count := t.view_count + 1 }
    ∧ (∀ tid', tid' ≠ tid →
      lookupL (Thread.inc_views s tid).threads tid' = lookupL s.threads tid')
    ∧ lookupL (Thread.inc_views s tid).forums t.forum
      = (lookupL s.forums t.forum).map (fun f => { f with view_count := f.view_count + 1 })
    ∧ (∀ fid, fid ≠ t.forum →
      lookupL (Thread.inc_views s tid).forums fid = lookupL s.forums fid)
    ∧ (Thread.inc_views s tid).replies = s.replies
    ∧ (Thread.inc_views s tid).subs = s.subs
    ∧ (Thread.inc_views s tid).postCounts = s.postCounts := by
  have he : Thread.inc_views s tid = Forum.inc_views (bumpThreadView s tid) t.forum := by
    unfold Thread.inc_views
    rw [ht]
  rw [he]
  unfold Forum.inc_views bumpThreadView
  refine ⟨?_, fun tid' h => ?_, ?_, fun fid h => ?_, rfl, rfl, rfl⟩
  · show lookupL (updateL s.threads tid
        (fun u => { u with view_count := u.view_count + 1 })) tid
      = some { t with view_count := t.view_count + 1 }
    rw [lookupL_updateL_self, ht]
    rfl
  · show lookupL (updateL s.threads tid
        (fun u => { u with view_count := u.view_count + 1 })) tid'
      = lookupL s.threads tid'
    exact lookupL_updateL_ne _ _ _ _ h
  · show lookupL (updateL s.forums t.forum
        (fun f => { f with view_count := f.view_count + 1 })) t.forum
      = (lookupL s.forums t.forum).map (fun f => { f with view_count := f.view_count + 1 })
    exact lookupL_updateL_self _ _ _
  · show lookupL (updateL s.forums t.forum
        (fun f => { f with view_count := f.view_count + 1 })) fid
      = lookupL s.forums fid
    exact lookupL_updateL_ne _ _ _ _ h

/-- The (id, parent) projection of the forum table: everything the parent
walk depends on. -/
def parentsOf (s : DB) : List (Nat × Option Nat) :=
  s.forums.map (fun p => (p.1, p.2.parent))

theorem bumpForum_parentsOf (s : DB) (fid : Nat) (r : Reply) :
    parentsOf (bumpForum s fid r) = parentsOf s :=
  updateL_map_shape s.forums fid (bump1F r) Forum.parent (fun _ => rfl)

theorem forumChain_succ_eq (fuel : Nat) (s : DB) (fid : Nat) :
    forumChain (fuel + 1) s fid =
      (match lookupL s.forums fid with
       | none => none
       | some f =>
         match f.parent with
         | none => some [fid]
         | some pr => (forumChain fuel s pr).map (fun l => fid :: l)) := rfl

theorem forumChain_missing (fuel : Nat) (s : DB) (fid : Nat)
    (hf : lookupL s.forums fid = none) : forumChain (fuel + 1) s fid = none := by
  rw [forumChain_succ_eq, hf]

theorem forumChain_root (fuel : Nat) (s : DB) (fid : Nat) (f : Forum)
    (hf : lookupL s.forums fid = some f) (hp : f.parent = none) :
    forumChain (fuel + 1) s fid = some [fid] := by
  rw [forumChain_succ_eq, hf]
  show (match f.parent with
        | none => some [fid]
        | some pr => (forumChain fuel s pr).map (fun l => fid :: l)) = _
  rw [hp]

theorem forumChain_parent (fuel : Nat) (s : DB) (fid : Nat) (f : Forum) (pr : Nat)
    (hf : lookupL s.forums fid = some f) (hp : f.parent = some pr) :
    forumChain (fuel + 1) s fid = (forumChain fuel s pr).map (fun l => fid :: l) := by
  rw [forumChain_succ_eq, hf]
  show (match f.parent with
        | none => some [fid]
        | some pr => (forumChain fuel s pr).map (fun l => fid :: l)) = _
  rw [hp]

theorem forumChain_congr (fuel : Nat) (s1 s2 : DB) (h : parentsOf s1 = parentsOf s2) :
    ∀ fid, forumChain fuel s1 fid = forumChain fuel s2 fid := by
  induction fuel with
  | zero => intro _; rfl
  | succ fuel ih =>
    intro fid
    have hl := lookupL_map_eq Forum.parent s1.forums s2.forums h fid
    cases h1 : lookupL s1.forums fid with
    | none =>
      cases h2 : lookupL s2.forums fid with
      | none => rw [forumChain_missing fuel s1 fid h1, forumChain_missing fuel s2 fid h2]
      | some f2 => rw [h1, h2] at hl; exact nomatch hl
    | some f1 =>
      cases h2 : lookupL s2.forums fid with
      | none => rw [h1, h2] at hl; exact nomatch hl
      | some f2 =>
        rw [h1, h2] at hl
        have hp : f1.parent = f2.parent := Option.some.inj hl
        cases hp2 : f2.parent with
        | none =>
          rw [forumChain_root fuel s1 fid f1 h1 (hp.trans hp2),
              forumChain_root fuel s2 fid f2 h2 hp2]
        | some pr =>
          rw [forumChain_parent fuel s1 fid f1 pr h1 (hp.trans hp2),
              forumChain_parent fuel s2 fid f2 pr h2 hp2, ih pr]

theorem forum_new_reply_walk (fuel : Nat) (s : DB) (f0 : Nat) (r : Reply) (l : List Nat)
    (hc : forumChain fuel s f0 = some l) (hnd : l.Nodup) :
    (∀ fid ∈ l, lookupL (Forum.new_reply fuel s f0 r).forums fid
        = (lookupL s.forums fid).map (bump1F r))
    ∧ (∀ fid, fid ∉ l →
        lookupL (Forum.new_reply fuel s f0 r).forums fid = lookupL s.forums fid) := by
  induction fuel generalizing s f0 l with
  | zero => exact nomatch hc
  | succ fuel ih =>
    cases h1 : lookupL s.forums f0 with
    | none => rw [forumChain_missing fuel s f0 h1] at hc; exact nomatch hc
    | some f =>
      cases hp : f.parent with
      | none =>
        rw [forumChain_root fuel s f0 f h1 hp] at hc
        obtain rfl : [f0] = l := Option.some.inj hc
        rw [new_reply_root fuel s f0 r f h1 hp]
        constructor
        · intro fid hfid
          obtain rfl : fid = f0 := List.mem_singleton.mp hfid
          show lookupL (updateL s.forums fid (bump1F r)) fid = _
          exact lookupL_updateL_self _ _ _
        · intro fid hfid
          have hne : fid ≠ f0 := fun hc' => hfid (hc' ▸ List.mem_singleton_self f0)
          show lookupL (updateL s.forums f0 (bump1F r)) fid = _
          exact lookupL_updateL_ne _ _ _ _ hne
      | some pr =>
        rw [forumChain_parent fuel s f0 f pr h1 hp] at hc
        cases hrest : forumChain fuel s pr with
        | none => rw [hrest] at hc; exact nomatch hc
        | some rest =>
          rw [hrest] at hc
          obtain rfl : f0 :: rest = l := Option.some.inj hc
          rw [new_reply_parent fuel s f0 r f pr h1 hp]
          have hndc := List.nodup_cons.mp hnd
          have hchain1 : forumChain fuel (bumpForum s f0 r) pr = some rest := by
            rw [forumChain_congr fuel (bumpForum s f0 r) s (bumpForum_parentsOf s f0 r) pr,
                hrest]
          have IH := ih (bumpForum s f0 r) pr rest hchain1 hndc.2
          constructor
          · intro fid hfid
            rcases List.mem_cons.mp hfid with rfl | hfm
            · rw [IH.2 fid hndc.1]
              show lookupL (updateL s.forums fid (bump1F r)) fid = _
              exact lookupL_updateL_self _ _ _
            · rw [IH.1 fid hfm]
              have hne : fid ≠ f0 := fun hc' => hndc.1 (hc' ▸ hfm)
              show (lookupL (updateL s.forums f0 (bump1F r)) fid).map (bump1F r) = _
              rw [lookupL_updateL_ne _ _ _ _ hne]
          · intro fid hfid
            have hne : fid ≠ f0 := fun hc' => hfid (hc' ▸ List.mem_cons_self f0 rest)
            have hnr : fid ∉ rest := fun hm => hfid (List.mem_cons_of_mem _ hm)
            rw [IH.2 fid hnr]
            show lookupL (updateL s.forums f0 (bump1F r)) fid = _
            exact lookupL_updateL_ne _ _ _ _ hne

/-- C1: one `ForumThread.new_reply` call increments `reply_count` by
exactly 1 on the thread and on every forum of the owning forum's ancestor
chain, sets `last_reply` to the reply and `last_modified` to its creation
time on all of them, and changes nothing else: all other threads and
forums, and the reply/subscription/post-count tables, are untouched. -/
theorem new_reply_propagation (fuel : Nat) (s : DB) (tid : Nat) (r : Reply) (t : Thread)
    (l : List Nat) (ht : lookupL s.threads tid = some t)
    (hc : forumChain fuel s t.forum = some l) (hnd : l.Nodup) :
    lookupL (Thread.new_reply fuel s tid r).threads tid = some (bump1T r t)
    ∧ (∀ tid', tid' ≠ tid →
        lookupL (Thread.new_reply fuel s tid r).threads tid' = lookupL s.threads tid')
    ∧ (∀ fid ∈ l, lookupL (Thread.new_reply fuel s tid r).forums fid
        = (lookupL s.forums fid).map (bump1F r))
    ∧ (∀ fid, fid ∉ l →
        lookupL (Thread.new_reply fuel s tid r).forums fid = lookupL s.forums fid)
    ∧ (Thread.new_reply fuel s tid r).replies = s.replies
    ∧ (Thread.new_reply fuel s tid r).subs = s.subs
    ∧ (Thread.new_reply fuel s tid r).postCounts = s.postCounts := by
  rw [thread_new_reply_eq fuel s tid r t ht]
  have hth : (Forum.new_reply fuel (bumpThread s tid r) t.forum r).threads
      = (bumpThread s tid r).threads := (new_reply_forum_frame _ _ _ _).1
  have hc' : forumChain fuel (bumpThread s tid r) t.forum = some l := by
    rw [forumChain_congr fuel (bumpThread s tid r) s rfl t.forum, hc]
  have walk := forum_new_reply_walk fuel (bumpThread s tid r) t.forum r l hc' hnd
  refine ⟨?_, fun tid' h => ?_, fun fid hm => walk.1 fid hm, fun fid hm => walk.2 fid hm,
    (new_reply_forum_frame _ _ _ _).2.1, (new_reply_forum_frame _ _ _ _).2.2.1,
    (new_reply_forum_frame _ _ _ _).2.2.2⟩
  · rw [hth]
    show lookupL (updateL s.threads tid (bump1T r)) tid = some (bump1T r t)
    rw [lookupL_updateL_self, ht]
    rfl
  · rw [hth]
    show lookupL (updateL s.threads tid (bump1T r)) tid' = lookupL s.threads tid'
    exact lookupL_updateL_ne _ _ _ _ h

/-- Example row: forum 1, the root of the example forum tree. -/
def exForum1 : Forum := { parent := none, last_modified := 0, last_reply := none, view_count := 2, reply_count := 1 }

/-- Example row: forum 2, a subforum of forum 1. -/
def exForum2 : Forum := { parent := some 1, last_modified := 0, last_reply := none, view_count := 3, reply_count := 1 }

/-- Example row: thread 10, living in forum 2, authored by user 5. -/
def exThread : Thread := { forum := 2, author := 5, created := 0, last_modified := 0, last_reply := none, view_count := 4, reply_count := 1, subscriber_count := 0 }

/-- Example database: forums 1 ← 2, thread 10 in forum 2 with one reply. -/
def exDB : DB := { forums := [(1, exForum1), (2, exForum2)], threads := [(10, exThread)], replies := [⟨100, 10, 5, 1⟩], subs := [], postCounts := [(5, 1)] }

/-- Example reply 101 to thread 10 by user 6, created at time 2. -/
def exReply : Reply := ⟨101, 10, 6, 2⟩

theorem new_reply_propagation_witness :
    lookupL (Thread.new_reply 3 exDB 10 exReply).threads 10 = some (bump1T exReply exThread)
    ∧ (∀ tid', tid' ≠ 10 →
        lookupL (Thread.new_reply 3 exDB 10 exReply).threads tid' = lookupL exDB.threads tid')
    ∧ (∀ fid ∈ [2, 1], lookupL (Thread.new_reply 3 exDB 10 exReply).forums fid
        = (lookupL exDB.forums fid).map (bump1F exReply))
    ∧ (∀ fid, fid ∉ [2, 1] →
        lookupL (Thread.new_reply 3 exDB 10 exReply).forums fid = lookupL exDB.forums fid)
    ∧ (Thread.new_reply 3 exDB 10 exReply).replies = exDB.replies
    ∧ (Thread.new_reply 3 exDB 10 exReply).subs = exDB.subs
    ∧ (Thread.new_reply 3 exDB 10 exReply).postCounts = exDB.postCounts :=
  new_reply_propagation 3 exDB 10 exReply exThread [2, 1] (by decide) (by decide) (by decide)

theorem inc_views_one_level_witness :
    lookupL (Thread.inc_views exDB 10).threads 10
      = some { exThread with view_count := exThread.view_count + 1 }
    ∧ (∀ tid', tid' ≠ 10 →
        lookupL (Thread.inc_views exDB 10).threads tid' = lookupL exDB.threads tid')
    ∧ lookupL (Thread.inc_views exDB 10).forums exThread.forum
      = (lookupL exDB.forums exThread.forum).map (fun f => { f with view_count := f.view_count + 1 })
    ∧ (∀ fid, fid ≠ exThread.forum →
        lookupL (Thread.inc_views exDB 10).forums fid = lookupL exDB.forums fid)
    ∧ (Thread.inc_views exDB 10).replies = exDB.replies
    ∧ (Thread.inc_views exDB 10).subs = exDB.subs
    ∧ (Thread.inc_views exDB 10).postCounts = exDB.postCounts :=
  inc_views_one_level exDB 10 exThread (by decide)

/-- C6: with no subscriptions yet on the thread, subscribing the same user
twice leaves exactly one subscription row for the pair, leaves the stored
`subscriber_count` at 1, and the second call is a state-preserving no-op
rather than an error. -/
theorem subscribe_twice_idempotent (s : DB) (tid uid : Nat) (t : Thread)
    (ht : lookupL s.threads tid = some t)
    (hn : s.subs.filter (fun p => p.1 == tid) = []) :
    Thread.subscribe (Thread.subscribe s tid uid) tid uid = Thread.subscribe s tid uid
    ∧ ((Thread.subscribe s tid uid).subs.filter (fun p => p == (tid, uid))).length = 1
    ∧ (lookupL (Thread.subscribe s tid uid).threads tid).map Thread.subscriber_count
      = some 1 := by
  have hall : ∀ p ∈ s.subs, ¬((p.1 == tid) = true) := List.filter_eq_nil.mp hn
  have hnotmem : (tid, uid) ∉ s.subs := fun hm => hall (tid, uid) hm (by simp)
  have e1 : Thread.subscribe s tid uid
      = Thread.update_subscriber_count { s with subs := (tid, uid) :: s.subs } tid := by
    unfold Thread.subscribe
    rw [if_neg hnotmem]
  have hcount : countSubs { s with subs := (tid, uid) :: s.subs } tid = 1 := by
    unfold countSubs
    show ((((tid, uid) :: s.subs).filter (fun p => p.1 == tid)).length : Int) = 1
    rw [List.filter_cons_of_pos (by simp), hn]
    rfl
  refine ⟨?_, ?_, ?_⟩
  · rw [e1]
    have hmem1 : (tid, uid)
        ∈ (Thread.update_subscriber_count { s with subs := (tid, uid) :: s.subs } tid).subs :=
      List.mem_cons_self _ _
    show Thread.subscribe _ tid uid = _
    unfold Thread.subscribe
    rw [if_pos hmem1]
  · rw [e1]
    have hfe : s.subs.filter (fun p => p == (tid, uid)) = [] := by
      refine List.filter_eq_nil.mpr (fun p hp hbe => ?_)
      have : p = (tid, uid) := by exact eq_of_beq hbe
      exact hall p hp (by rw [this]; simp)
    show (((tid, uid) :: s.subs).filter (fun p => p == (tid, uid))).length = 1
    rw [List.filter_cons_of_pos (by simp), hfe]
    rfl
  · rw [e1]
    unfold Thread.update_subscriber_count
    show (lookupL (updateL s.threads tid (fun u =>
        { u with subscriber_count := countSubs { s with subs := (tid, uid) :: s.subs } tid }))
      tid).map Thread.subscriber_count = some 1
    rw [lookupL_updateL_self, ht]
    show some (countSubs { s with subs := (tid, uid) :: s.subs } tid) = some 1
    rw [hcount]

/-- Example row: thread 10 with a stored subscriber count of 1. -/
def subThread : Thread := { forum := 2, author := 5, created := 0, last_modified := 0, last_reply := none, view_count := 0, reply_count := 0, subscriber_count := 1 }

/-- Example database: thread 10 with exactly one subscription, by user 7. -/
def subDB : DB := { forums := [], threads := [(10, subThread)], replies := [], subs := [(10, 7)], postCounts := [] }

theorem subscribe_twice_idempotent_witness :
    Thread.subscribe (Thread.subscribe exDB 10 7) 10 7 = Thread.subscribe exDB 10 7
    ∧ ((Thread.subscribe exDB 10 7).subs.filter (fun p => p == (10, 7))).length = 1
    ∧ (lookupL (Thread.subscribe exDB 10 7).threads 10).map Thread.subscriber_count
      = some 1 :=
  subscribe_twice_idempotent exDB 10 7 exThread (by decide) (by decide)

/-- C10: unsubscribing a currently subscribed user deletes the
subscription row but leaves every thread row — hence the stored
`subscriber_count` — unchanged, because the `post_delete` signal handler
only acts when `created` is true; so the stored count exceeds the true
count by one until `update_subscriber_count` is run, which restores it. -/
theorem unsubscribe_stale_subscriber_count (s : DB) (tid uid : Nat) (t : Thread)
    (ht : lookupL s.threads tid = some t)
    (hmem : (tid, uid) ∈ s.subs)
    (hsync : t.subscriber_count = countSubs s tid) :
    (Thread.unsubscribe s tid uid).threads = s.threads
    ∧ (Thread.unsubscribe s tid uid).subs = s.subs.erase (tid, uid)
    ∧ countSubs s tid = countSubs (Thread.unsubscribe s tid uid) tid + 1
    ∧ (lookupL (Thread.unsubscribe s tid uid).threads tid).map Thread.subscriber_count
      = some (countSubs (Thread.unsubscribe s tid uid) tid + 1)
    ∧ (lookupL (Thread.update_subscriber_count (Thread.unsubscribe s tid uid) tid).threads
        tid).map Thread.subscriber_count
      = some (countSubs (Thread.unsubscribe s tid uid) tid) := by
  have e : Thread.unsubscribe s tid uid = { s with subs := s.subs.erase (tid, uid) } := by
    unfold Thread.unsubscribe
    rw [if_pos hmem]
  obtain ⟨l1, l2, hnotin, hsplit, herase⟩ := List.exists_erase_eq hmem
  have hcnt : countSubs s tid = countSubs (Thread.unsubscribe s tid uid) tid + 1 := by
    rw [e]
    unfold countSubs
    show ((s.subs.filter (fun p => p.1 == tid)).length : Int)
      = ((s.subs.erase (tid, uid)).filter (fun p => p.1 == tid)).length + 1
    rw [herase, hsplit]
    rw [List.filter_append, List.filter_append, List.filter_cons_of_pos (by simp)]
    simp only [List.length_append, List.length_cons]
    push_cast
    ring
  refine ⟨by rw [e], by rw [e], hcnt, ?_, ?_⟩
  · rw [e]
    show (lookupL s.threads tid).map Thread.subscriber_count = _
    rw [ht]
    show some t.subscriber_count = _
    rw [hsync, hcnt, e]
  · unfold Thread.update_subscriber_count
    show (lookupL (updateL (Thread.unsubscribe s tid uid).threads tid (fun u =>
        { u with subscriber_count := countSubs (Thread.unsubscribe s tid uid) tid }))
      tid).map Thread.subscriber_count = some (countSubs (Thread.unsubscribe s tid uid) tid)
    rw [lookupL_updateL_self, e]
    have ht' : lookupL ({ s with subs := s.subs.erase (tid, uid) } : DB).threads tid = some t := ht
    rw [ht']
    rfl

theorem unsubscribe_stale_subscriber_count_witness :
    (Thread.unsubscribe subDB 10 7).threads = subDB.threads
    ∧ (Thread.unsubscribe subDB 10 7).subs = subDB.subs.erase (10, 7)
    ∧ countSubs subDB 10 = countSubs (Thread.unsubscribe subDB 10 7) 10 + 1
    ∧ (lookupL (Thread.unsubscribe subDB 10 7).threads 10).map Thread.subscriber_count
      = some (countSubs (Thread.unsubscribe subDB 10 7) 10 + 1)
    ∧ (lookupL (Thread.update_subscriber_count (Thread.unsubscribe subDB 10 7) 10).threads
        10).map Thread.subscriber_count
      = some (countSubs (Thread.unsubscribe subDB 10 7) 10) :=
  unsubscribe_stale_subscriber_count subDB 10 7 subThread (by decide) (by decide) (by decide)

/-- All fields of a forum row except the `reply_count` counter. -/
def shapeF1 (f : Forum) : Option Nat × Int × Option Nat × Int :=
  (f.parent, f.last_modified, f.last_reply, f.view_count)

/-- All fields of a thread row except the `reply_count` counter. -/
def shapeT1 (t : Thread) : Nat × Nat × Int × Int × Option Nat × Int × Int :=
  (t.forum, t.author, t.created, t.last_modified, t.last_reply, t.view_count,
    t.subscriber_count)

/-- The forum table with `reply_count` erased. -/
def shapeF (s : DB) : List (Nat × (Option Nat × Int × Option Nat × Int)) :=
  s.forums.map (fun p => (p.1, shapeF1 p.2))

/-- The thread table with `reply_count` erased. -/
def shapeT (s : DB) : List (Nat × (Nat × Nat × Int × Int × Option Nat × Int × Int)) :=
  s.threads.map (fun p => (p.1, shapeT1 p.2))

/-- Two states agree on everything except possibly the `reply_count`
counters of forums and threads. -/
def StructEq (s1 s2 : DB) : Prop :=
  shapeF s1 = shapeF s2 ∧ shapeT s1 = shapeT s2 ∧ s1.replies = s2.replies
    ∧ s1.subs = s2.subs ∧ s1.postCounts = s2.postCounts

theorem structEq_refl (s : DB) : StructEq s s := ⟨rfl, rfl, rfl, rfl, rfl⟩

theorem structEq_symm {s1 s2 : DB} (h : StructEq s1 s2) : StructEq s2 s1 :=
  ⟨h.1.symm, h.2.1.symm, h.2.2.1.symm, h.2.2.2.1.symm, h.2.2.2.2.symm⟩

theorem structEq_trans {s1 s2 s3 : DB} (h : StructEq s1 s2) (h' : StructEq s2 s3) :
    StructEq s1 s3 :=
  ⟨h.1.trans h'.1, h.2.1.trans h'.2.1, h.2.2.1.trans h'.2.2.1,
    h.2.2.2.1.trans h'.2.2.2.1, h.2.2.2.2.trans h'.2.2.2.2⟩

theorem subforumIds_structEq {s1 s2 : DB} (h : StructEq s1 s2) (fid : Nat) :
    subforumIds s1 fid = subforumIds s2 fid :=
  filter_map_keys_eq shapeF1 (fun b => b.1 == some fid) s1.forums s2.forums h.1

theorem threadIds_structEq {s1 s2 : DB} (h : StructEq s1 s2) (fid : Nat) :
    threadIds s1 fid = threadIds s2 fid :=
  filter_map_keys_eq shapeT1 (fun b => b.1 == fid) s1.threads s2.threads h.2.1

theorem countReplies_structEq {s1 s2 : DB} (h : StructEq s1 s2) (tid : Nat) :
    countReplies s1 tid = countReplies s2 tid := by
  unfold countReplies
  rw [h.2.2.1]

theorem forumPresence_structEq {s1 s2 : DB} (h : StructEq s1 s2) (fid : Nat) :
    (lookupL s1.forums fid).isSome = (lookupL s2.forums fid).isSome := by
  have hl := lookupL_map_eq shapeF1 s1.forums s2.forums h.1 fid
  cases h1 : lookupL s1.forums fid with
  | none =>
    cases h2 : lookupL s2.forums fid with
    | none => rfl
    | some f2 => rw [h1, h2] at hl; exact nomatch hl
  | some f1 =>
    cases h2 : lookupL s2.forums fid with
    | none => rw [h1, h2] at hl; exact nomatch hl
    | some f2 => rfl

theorem threadPresence_structEq {s1 s2 : DB} (h : StructEq s1 s2) (tid : Nat) :
    (lookupL s1.threads tid).isSome = (lookupL s2.threads tid).isSome := by
  have hl := lookupL_map_eq shapeT1 s1.threads s2.threads h.2.1 tid
  cases h1 : lookupL s1.threads tid with
  | none =>
    cases h2 : lookupL s2.threads tid with
    | none => rfl
    | some t2 => rw [h1, h2] at hl; exact nomatch hl
  | some t1 =>
    cases h2 : lookupL s2.threads tid with
    | none => rw [h1, h2] at hl; exact nomatch hl
    | some t2 => rfl

theorem subtreeReplies_structEq {s1 s2 : DB} (h : StructEq s1 s2) :
    ∀ fuel fid, subtreeReplies fuel s1 fid = subtreeReplies fuel s2 fid := by
  intro fuel
  induction fuel with
  | zero => intro _; rfl
  | succ fuel ih =>
    intro fid
    show ((subforumIds s1 fid).map (fun sf => subtreeReplies fuel s1 sf)).sum
        + ((threadIds s1 fid).map (fun tid => countReplies s1 tid)).sum
      = ((subforumIds s2 fid).map (fun sf => subtreeReplies fuel s2 sf)).sum
        + ((threadIds s2 fid).map (fun tid => countReplies s2 tid)).sum
    rw [subforumIds_structEq h fid, threadIds_structEq h fid]
    rw [List.map_congr_left (fun sf _ => ih sf),
        List.map_congr_left (fun tid _ => countReplies_structEq h tid)]

theorem subtreeDepthOk_structEq {s1 s2 : DB} (h : StructEq s1 s2) :
    ∀ fuel fid, subtreeDepthOk fuel s1 fid = subtreeDepthOk fuel s2 fid := by
  intro fuel
  induction fuel with
  | zero => intro _; rfl
  | succ fuel ih =>
    intro fid
    show (subforumIds s1 fid).all (fun sf => subtreeDepthOk fuel s1 sf)
      = (subforumIds s2 fid).all (fun sf => subtreeDepthOk fuel s2 sf)
    rw [subforumIds_structEq h fid]
    exact list_all_congr _ _ _ (fun sf _ => ih sf)

theorem keysF_structEq {s1 s2 : DB} (h : StructEq s1 s2) :
    s1.forums.map (fun p => p.1) = s2.forums.map (fun p => p.1) := by
  have hm := congrArg
    (List.map (fun q : Nat × (Option Nat × Int × Option Nat × Int) => q.1)) h.1
  rw [shapeF, shapeF, List.map_map, List.map_map] at hm
  exact hm

theorem keysT_structEq {s1 s2 : DB} (h : StructEq s1 s2) :
    s1.threads.map (fun p => p.1) = s2.threads.map (fun p => p.1) := by
  have hm := congrArg
    (List.map (fun q : Nat × (Nat × Nat × Int × Int × Option Nat × Int × Int) => q.1)) h.2.1
  rw [shapeT, shapeT, List.map_map, List.map_map] at hm
  exact hm

theorem lookupL_isSome_of_mem {α : Type} (l : List (Nat × α)) (k : Nat)
    (h : k ∈ l.map (fun p => p.1)) : (lookupL l k).isSome = true := by
  induction l with
  | nil => exact nomatch h
  | cons p l ih =>
    by_cases hp : p.1 = k
    · show (if p.1 = k then some p.2 else lookupL l k).isSome = true
      rw [if_pos hp]
      rfl
    · show (if p.1 = k then some p.2 else lookupL l k).isSome = true
      rw [if_neg hp]
      rcases List.mem_cons.mp h with h1 | h2
      · exact absurd h1.symm hp
      · exact ih h2

theorem subforumIds_present (s : DB) (fid sf : Nat) (h : sf ∈ subforumIds s fid) :
    (lookupL s.forums sf).isSome = true := by
  apply lookupL_isSome_of_mem
  obtain ⟨p, hp, hpe⟩ := List.mem_map.mp h
  exact List.mem_map.mpr ⟨p, List.mem_of_mem_filter hp, hpe⟩

theorem threadIds_present (s : DB) (fid tid : Nat) (h : tid ∈ threadIds s fid) :
    (lookupL s.threads tid).isSome = true := by
  apply lookupL_isSome_of_mem
  obtain ⟨p, hp, hpe⟩ := List.mem_map.mp h
  exact List.mem_map.mpr ⟨p, List.mem_of_mem_filter hp, hpe⟩

theorem forum_update_zero_eq (s : DB) (fid : Nat) : Forum.update_reply_count 0 s fid = s := rfl

theorem forum_update_succ_eq (fuel : Nat) (s : DB) (fid : Nat) :
    Forum.update_reply_count (fuel + 1) s fid
      = setForumRC
          (accumFold Thread.update_reply_count rcT
            (threadIds
              (accumFold (Forum.update_reply_count fuel) rcF (subforumIds s fid)
                (s, (0 : Int))).1 fid)
            (accumFold (Forum.update_reply_count fuel) rcF (subforumIds s fid)
              (s, (0 : Int)))).1
          fid
          (accumFold Thread.update_reply_count rcT
            (threadIds
              (accumFold (Forum.update_reply_count fuel) rcF (subforumIds s fid)
                (s, (0 : Int))).1 fid)
            (accumFold (Forum.update_reply_count fuel) rcF (subforumIds s fid)
              (s, (0 : Int)))).2 := rfl

theorem accumFold_nil (g : DB → Nat → DB) (v : DB → Nat → Int) (acc : DB × Int) :
    accumFold g v [] acc = acc := rfl

theorem accumFold_cons (g : DB → Nat → DB) (v : DB → Nat → Int) (x : Nat) (l : List Nat)
    (acc : DB × Int) :
    accumFold g v (x :: l) acc = accumFold g v l (g acc.1 x, acc.2 + v (g acc.1 x) x) := rfl

theorem thread_update_structEq (s : DB) (tid : Nat) :
    StructEq (Thread.update_reply_count s tid) s :=
  ⟨rfl,
    updateL_map_shape s.threads tid (fun t => { t with reply_count := countReplies s tid })
      shapeT1 (fun _ => rfl),
    rfl, rfl, rfl⟩

theorem setForumRC_structEq (s : DB) (fid : Nat) (v : Int) :
    StructEq (setForumRC s fid v) s :=
  ⟨updateL_map_shape s.forums fid (fun f => { f with reply_count := v })
      shapeF1 (fun _ => rfl),
    rfl, rfl, rfl, rfl⟩

theorem thread_update_count (s : DB) (tid : Nat)
    (hex : (lookupL s.threads tid).isSome = true) :
    rcT (Thread.update_reply_count s tid) tid = countReplies s tid := by
  show ((lookupL (updateL s.threads tid
      (fun t => { t with reply_count := countReplies s tid })) tid).map
      Thread.reply_count).getD 0 = countReplies s tid
  rw [lookupL_updateL_self]
  cases hl : lookupL s.threads tid with
  | none => rw [hl] at hex; exact nomatch hex
  | some t => rfl

theorem thread_update_rcT_ne (s : DB) (tid tid' : Nat) (h : tid' ≠ tid) :
    rcT (Thread.update_reply_count s tid) tid' = rcT s tid' := by
  show ((lookupL (updateL s.threads tid
      (fun t => { t with reply_count := countReplies s tid })) tid').map
      Thread.reply_count).getD 0 = rcT s tid'
  rw [lookupL_updateL_ne _ _ _ _ h]
  rfl

theorem thread_update_rcF (s : DB) (tid x : Nat) :
    rcF (Thread.update_reply_count s tid) x = rcF s x := rfl

theorem setForumRC_rcF (s : DB) (fid : Nat) (v : Int)
    (hex : (lookupL s.forums fid).isSome = true) :
    rcF (setForumRC s fid v) fid = v := by
  show ((lookupL (updateL s.forums fid (fun f => { f with reply_count := v })) fid).map
      Forum.reply_count).getD 0 = v
  rw [lookupL_updateL_self]
  cases hl : lookupL s.forums fid with
  | none => rw [hl] at hex; exact nomatch hex
  | some f => rfl

theorem setForumRC_rcF_ne (s : DB) (fid x : Nat) (h : x ≠ fid) :
    rcF (setForumRC s fid v) x = rcF s x := by
  show ((lookupL (updateL s.forums fid (fun f => { f with reply_count := v })) x).map
      Forum.reply_count).getD 0 = rcF s x
  rw [lookupL_updateL_ne _ _ _ _ h]
  rfl

theorem setForumRC_rcT (s : DB) (fid : Nat) (v : Int) (tid : Nat) :
    rcT (setForumRC s fid v) tid = rcT s tid := rfl

theorem subtreeDepthOk_succ_eq (fuel : Nat) (s : DB) (fid : Nat) :
    subtreeDepthOk (fuel + 1) s fid
      = (subforumIds s fid).all (fun sf => subtreeDepthOk fuel s sf) := rfl

theorem subtreeReplies_succ_eq (fuel : Nat) (s : DB) (fid : Nat) :
    subtreeReplies (fuel + 1) s fid
      = ((subforumIds s fid).map (fun sf => subtreeReplies fuel s sf)).sum
        + ((threadIds s fid).map (fun tid => countReplies s tid)).sum := rfl

theorem subtreeReplies_stable (s : DB) :
    ∀ fuel fuel', fuel ≤ fuel' → ∀ fid, subtreeDepthOk fuel s fid = true →
      subtreeReplies fuel' s fid = subtreeReplies fuel s fid := by
  intro fuel
  induction fuel with
  | zero => intro fuel' _ fid hd; exact nomatch hd
  | succ fuel ih =>
    intro fuel' hle fid hd
    obtain ⟨fuel'', rfl⟩ : ∃ m, fuel' = m + 1 :=
      ⟨fuel' - 1, by omega⟩
    have hsub : ∀ sf ∈ subforumIds s fid, subtreeDepthOk fuel s sf = true := by
      rw [subtreeDepthOk_succ_eq] at hd
      exact fun sf hm => List.all_eq_true.mp hd sf hm
    rw [subtreeReplies_succ_eq, subtreeReplies_succ_eq]
    have hmap : (subforumIds s fid).map (fun sf => subtreeReplies fuel'' s sf)
        = (subforumIds s fid).map (fun sf => subtreeReplies fuel s sf) := by
      refine List.map_congr_left (fun sf hm => ?_)
      exact ih fuel'' (by omega) sf (hsub sf hm)
    rw [hmap]

/-- All counter writes performed by reconciliation are either no-ops or
canonical: relative to base state `s0`, state `s1` has the same structure
and every forum/thread `reply_count` either kept its old value or was set
to its true (structure-determined) value. -/
def CanonRel (N : Nat) (s0 s1 : DB) : Prop :=
  StructEq s1 s0
  ∧ (∀ x, rcF s1 x = rcF s0 x ∨ rcF s1 x = subtreeReplies N s0 x)
  ∧ (∀ t, rcT s1 t = rcT s0 t ∨ rcT s1 t = countReplies s0 t)

theorem canonRel_refl (N : Nat) (s : DB) : CanonRel N s s :=
  ⟨structEq_refl s, fun x => Or.inl rfl, fun t => Or.inl rfl⟩

theorem canonRel_trans {N : Nat} {s0 s1 s2 : DB}
    (h : CanonRel N s0 s1) (h' : CanonRel N s1 s2) : CanonRel N s0 s2 := by
  refine ⟨structEq_trans h'.1 h.1, fun x => ?_, fun t => ?_⟩
  · rcases h'.2.1 x with he | he
    · rw [he]; exact h.2.1 x
    · right
      rw [he]
      exact subtreeReplies_structEq h.1 N x
  · rcases h'.2.2 t with he | he
    · rw [he]; exact h.2.2 t
    · right
      rw [he]
      exact countReplies_structEq h.1 t

theorem thread_update_canon (N : Nat) (s : DB) (tid : Nat) :
    CanonRel N s (Thread.update_reply_count s tid) := by
  refine ⟨thread_update_structEq s tid, fun x => Or.inl rfl, fun t => ?_⟩
  by_cases h : t = tid
  · subst h
    by_cases hex : (lookupL s.threads t).isSome = true
    · exact Or.inr (thread_update_count s t hex)
    · left
      show ((lookupL (updateL s.threads t
          (fun u => { u with reply_count := countReplies s t })) t).map
          Thread.reply_count).getD 0 = rcT s t
      rw [lookupL_updateL_self]
      cases hl : lookupL s.threads t with
      | none =>
        show (0 : Int) = rcT s t
        unfold rcT
        rw [hl]
        rfl
      | some u => rw [hl] at hex; exact absurd rfl hex
  · exact Or.inl (thread_update_rcT_ne s tid t h)

theorem setForumRC_canon (N : Nat) (s : DB) (fid : Nat) (v : Int)
    (hv : v = subtreeReplies N s fid) :
    CanonRel N s (setForumRC s fid v) := by
  refine ⟨setForumRC_structEq s fid v, fun x => ?_, fun t => Or.inl rfl⟩
  by_cases h : x = fid
  · subst h
    by_cases hex : (lookupL s.forums x).isSome = true
    · exact Or.inr (by rw [setForumRC_rcF s x v hex, hv])
    · left
      show ((lookupL (updateL s.forums x (fun f => { f with reply_count := v })) x).map
          Forum.reply_count).getD 0 = rcF s x
      rw [lookupL_updateL_self]
      cases hl : lookupL s.forums x with
      | none =>
        show (0 : Int) = rcF s x
        unfold rcF
        rw [hl]
        rfl
      | some f => rw [hl] at hex; exact absurd rfl hex
  · exact Or.inl (setForumRC_rcF_ne s fid x h)

/-- The reply counters in the subtree of forum `fid` (explored to depth
`fuel`) all hold their true, structure-determined values (`N` is a fuel
bound large enough for the whole tree). -/
def corr (N : Nat) : Nat → DB → Nat → Prop
  | 0, _, _ => True
  | fuel+1, s, fid =>
    rcF s fid = subtreeReplies N s fid
    ∧ (∀ tid ∈ threadIds s fid, rcT s tid = countReplies s tid)
    ∧ (∀ sf ∈ subforumIds s fid, corr N fuel s sf)

theorem corr_zero (N : Nat) (s : DB) (fid : Nat) : corr N 0 s fid := trivial

theorem corr_succ_eq (N fuel : Nat) (s : DB) (fid : Nat) :
    corr N (fuel + 1) s fid =
      (rcF s fid = subtreeReplies N s fid
       ∧ (∀ tid ∈ threadIds s fid, rcT s tid = countReplies s tid)
       ∧ (∀ sf ∈ subforumIds s fid, corr N fuel s sf)) := rfl

theorem corr_of_canonRel (N : Nat) :
    ∀ fuel (s1 s2 : DB) (fid : Nat),
      CanonRel N s1 s2 → corr N fuel s1 fid → corr N fuel s2 fid := by
  intro fuel
  induction fuel with
  | zero => intro s1 s2 fid _ _; exact trivial
  | succ fuel ih =>
    intro s1 s2 fid hrel hcorr
    have hst : StructEq s2 s1 := hrel.1
    rw [corr_succ_eq] at hcorr ⊢
    refine ⟨?_, fun tid hm => ?_, fun sf hm => ?_⟩
    · rcases hrel.2.1 fid with he | he
      · rw [he, hcorr.1]
        exact subtreeReplies_structEq (structEq_symm hst) N fid
      · rw [he]
        exact subtreeReplies_structEq (structEq_symm hst) N fid
    · have hm1 : tid ∈ threadIds s1 fid := by
        rw [← threadIds_structEq hst fid]; exact hm
      rcases hrel.2.2 tid with he | he
      · rw [he, hcorr.2.1 tid hm1]
        exact countReplies_structEq (structEq_symm hst) tid
      · rw [he]
        exact countReplies_structEq (structEq_symm hst) tid
    · have hm1 : sf ∈ subforumIds s1 fid := by
        rw [← subforumIds_structEq hst fid]; exact hm
      exact ih s1 s2 sf hrel (hcorr.2.2 sf hm1)

theorem accumFold_thread_spec (N : Nat) (s0 : DB) :
    ∀ (l : List Nat) (s : DB) (c : Int),
      CanonRel N s0 s →
      (∀ tid ∈ l, (lookupL s0.threads tid).isSome = true) →
      CanonRel N s (accumFold Thread.update_reply_count rcT l (s, c)).1
      ∧ (accumFold Thread.update_reply_count rcT l (s, c)).2
        = c + ((l.map (fun tid => countReplies s0 tid)).sum)
      ∧ (∀ tid ∈ l,
          rcT (accumFold Thread.update_reply_count rcT l (s, c)).1 tid
            = countReplies s0 tid) := by
  intro l
  induction l with
  | nil =>
    intro s c _ _
    refine ⟨canonRel_refl N s, by rw [accumFold_nil]; simp, fun tid hm => nomatch hm⟩
  | cons x l ih =>
    intro s c hrel hpres
    rw [accumFold_cons]
    have hst : StructEq s s0 := hrel.1
    have hpx : (lookupL s.threads x).isSome = true := by
      rw [threadPresence_structEq hst x]
      exact hpres x (List.mem_cons_self x l)
    have hcx : countReplies s x = countReplies s0 x := countReplies_structEq hst x
    have hvx : rcT (Thread.update_reply_count s x) x = countReplies s0 x := by
      rw [thread_update_count s x hpx, hcx]
    have hrel1 : CanonRel N s0 (Thread.update_reply_count s x) :=
      canonRel_trans hrel (thread_update_canon N s x)
    have IH := ih (Thread.update_reply_count s x) (c + rcT (Thread.update_reply_count s x) x)
      hrel1 (fun tid hm => hpres tid (List.mem_cons_of_mem x hm))
    refine ⟨canonRel_trans (thread_update_canon N s x) IH.1, ?_, fun tid hm => ?_⟩
    · rw [IH.2.1, hvx]
      simp only [List.map_cons, List.sum_cons]
      ring
    · rcases List.mem_cons.mp hm with rfl | hm'
      · rcases IH.1.2.2 tid with he | he
        · rw [he, hvx]
        · rw [he]
          exact countReplies_structEq hrel1.1 tid
      · exact IH.2.2 tid hm'

theorem accumFold_forum_spec (N fuel : Nat) (s0 : DB)
    (hIH : ∀ s fid, subtreeDepthOk fuel s fid = true →
      CanonRel N s (Forum.update_reply_count fuel s fid)
      ∧ ((lookupL s.forums fid).isSome = true →
        rcF (Forum.update_reply_count fuel s fid) fid = subtreeReplies N s fid
        ∧ corr N fuel (Forum.update_reply_count fuel s fid) fid)) :
    ∀ (l : List Nat) (s : DB) (c : Int),
      CanonRel N s0 s →
      (∀ sf ∈ l, subtreeDepthOk fuel s0 sf = true) →
      (∀ sf ∈ l, (lookupL s0.forums sf).isSome = true) →
      CanonRel N s (accumFold (Forum.update_reply_count fuel) rcF l (s, c)).1
      ∧ (accumFold (Forum.update_reply_count fuel) rcF l (s, c)).2
        = c + ((l.map (fun sf => subtreeReplies N s0 sf)).sum)
      ∧ (∀ sf ∈ l,
          corr N fuel (accumFold (Forum.update_reply_count fuel) rcF l (s, c)).1 sf) := by
  intro l
  induction l with
  | nil =>
    intro s c _ _ _
    refine ⟨canonRel_refl N s, by rw [accumFold_nil]; simp, fun sf hm => nomatch hm⟩
  | cons x l ih =>
    intro s c hrel hdep hpres
    rw [accumFold_cons]
    have hst : StructEq s s0 := hrel.1
    have hdx : subtreeDepthOk fuel s x = true := by
      rw [subtreeDepthOk_structEq hst fuel x]
      exact hdep x (List.mem_cons_self x l)
    have hpx : (lookupL s.forums x).isSome = true := by
      rw [forumPresence_structEq hst x]
      exact hpres x (List.mem_cons_self x l)
    have hx := hIH s x hdx
    have hxv := hx.2 hpx
    have hvx : rcF (Forum.update_reply_count fuel s x) x = subtreeReplies N s0 x := by
      rw [hxv.1]
      exact subtreeReplies_structEq hst N x
    have hrel1 : CanonRel N s0 (Forum.update_reply_count fuel s x) :=
      canonRel_trans hrel hx.1
    have IH := ih (Forum.update_reply_count fuel s x)
      (c + rcF (Forum.update_reply_count fuel s x) x) hrel1
      (fun sf hm => hdep sf (List.mem_cons_of_mem x hm))
      (fun sf hm => hpres sf (List.mem_cons_of_mem x hm))
    refine ⟨canonRel_trans hx.1 IH.1, ?_, fun sf hm => ?_⟩
    · rw [IH.2.1, hvx]
      simp only [List.map_cons, List.sum_cons]
      ring
    · rcases List.mem_cons.mp hm with rfl | hm'
      · exact corr_of_canonRel N fuel _ _ sf IH.1 hxv.2
      · exact IH.2.2 sf hm'

theorem accumFold_thread_spec' (N : Nat) (s0 : DB) (l : List Nat) (acc : DB × Int)
    (hrel : CanonRel N s0 acc.1)
    (hpres : ∀ tid ∈ l, (lookupL s0.threads tid).isSome = true) :
    CanonRel N acc.1 (accumFold Thread.update_reply_count rcT l acc).1
    ∧ (accumFold Thread.update_reply_count rcT l acc).2
      = acc.2 + ((l.map (fun tid => countReplies s0 tid)).sum)
    ∧ (∀ tid ∈ l,
        rcT (accumFold Thread.update_reply_count rcT l acc).1 tid
          = countReplies s0 tid) := by
  obtain ⟨s, c⟩ := acc
  exact accumFold_thread_spec N s0 l s c hrel hpres

theorem accumFold_forum_spec' (N fuel : Nat) (s0 : DB)
    (hIH : ∀ s fid, subtreeDepthOk fuel s fid = true →
      CanonRel N s (Forum.update_reply_count fuel s fid)
      ∧ ((lookupL s.forums fid).isSome = true →
        rcF (Forum.update_reply_count fuel s fid) fid = subtreeReplies N s fid
        ∧ corr N fuel (Forum.update_reply_count fuel s fid) fid))
    (l : List Nat) (acc : DB × Int)
    (hrel : CanonRel N s0 acc.1)
    (hdep : ∀ sf ∈ l, subtreeDepthOk fuel s0 sf = true)
    (hpres : ∀ sf ∈ l, (lookupL s0.forums sf).isSome = true) :
    CanonRel N acc.1 (accumFold (Forum.update_reply_count fuel) rcF l acc).1
    ∧ (accumFold (Forum.update_reply_count fuel) rcF l acc).2
      = acc.2 + ((l.map (fun sf => subtreeReplies N s0 sf)).sum)
    ∧ (∀ sf ∈ l,
        corr N fuel (accumFold (Forum.update_reply_count fuel) rcF l acc).1 sf) := by
  obtain ⟨s, c⟩ := acc
  exact accumFold_forum_spec N fuel s0 hIH l s c hrel hdep hpres

theorem subtreeReplies_succ_stable (N fuel : Nat) (s : DB) (fid : Nat)
    (hle : fuel + 1 ≤ N) (hd : subtreeDepthOk (fuel + 1) s fid = true) :
    subtreeReplies N s fid
      = ((subforumIds s fid).map (fun sf => subtreeReplies N s sf)).sum
        + ((threadIds s fid).map (fun tid => countReplies s tid)).sum := by
  rw [subtreeReplies_stable s (fuel + 1) N hle fid hd, subtreeReplies_succ_eq]
  congr 1
  refine congrArg List.sum (List.map_congr_left (fun sf hm => ?_))
  have hdsf : subtreeDepthOk fuel s sf = true := by
    rw [subtreeDepthOk_succ_eq] at hd
    exact List.all_eq_true.mp hd sf hm
  rw [subtreeReplies_stable s fuel N (by omega) sf hdsf]

/-- Master lemma for `Forum.update_reply_count`: every counter write it
performs is canonical (CanonRel), and — when the forum row exists — it
stores the true subtree reply total at the root and leaves the whole
explored subtree in the `corr` (fully reconciled) state. -/
theorem forum_update_master (N : Nat) :
    ∀ fuel, fuel ≤ N → ∀ s fid,
      subtreeDepthOk fuel s fid = true →
      CanonRel N s (Forum.update_reply_count fuel s fid)
      ∧ ((lookupL s.forums fid).isSome = true →
          rcF (Forum.update_reply_count fuel s fid) fid = subtreeReplies N s fid
          ∧ corr N fuel (Forum.update_reply_count fuel s fid) fid) := by
  intro fuel
  induction fuel with
  | zero => intro _ s fid hd; exact nomatch hd
  | succ fuel ih =>
    intro hle s fid hd
    have hIH := ih (by omega)
    have hds : ∀ sf ∈ subforumIds s fid, subtreeDepthOk fuel s sf = true := by
      rw [subtreeDepthOk_succ_eq] at hd
      exact fun sf hm => List.all_eq_true.mp hd sf hm
    have hpresF : ∀ sf ∈ subforumIds s fid, (lookupL s.forums sf).isSome = true :=
      fun sf hm => subforumIds_present s fid sf hm
    have hpresT : ∀ tid ∈ threadIds s fid, (lookupL s.threads tid).isSome = true :=
      fun tid hm => threadIds_present s fid tid hm
    rw [forum_update_succ_eq]
    set P := accumFold (Forum.update_reply_count fuel) rcF (subforumIds s fid)
      (s, (0 : Int)) with hPdef
    have A := accumFold_forum_spec' N fuel s hIH (subforumIds s fid) (s, (0 : Int))
      (canonRel_refl N s) hds hpresF
    rw [← hPdef] at A
    have hPs : StructEq P.1 s := A.1.1
    have htid : threadIds P.1 fid = threadIds s fid := threadIds_structEq hPs fid
    rw [htid]
    set Q := accumFold Thread.update_reply_count rcT (threadIds s fid) P with hQdef
    have B := accumFold_thread_spec' N s (threadIds s fid) P A.1 hpresT
    rw [← hQdef] at B
    have hQs : StructEq Q.1 s := structEq_trans B.1.1 hPs
    have hQ2 : Q.2 = subtreeReplies N s fid := by
      rw [B.2.1, A.2.1, subtreeReplies_succ_stable N fuel s fid hle hd]
      ring
    have hvQ : Q.2 = subtreeReplies N Q.1 fid :=
      hQ2.trans (subtreeReplies_structEq (structEq_symm hQs) N fid)
    have hcanonSet : CanonRel N Q.1 (setForumRC Q.1 fid Q.2) :=
      setForumRC_canon N Q.1 fid Q.2 hvQ
    have hstRes : StructEq (setForumRC Q.1 fid Q.2) s :=
      structEq_trans (setForumRC_structEq Q.1 fid Q.2) hQs
    refine ⟨canonRel_trans (canonRel_trans A.1 B.1) hcanonSet, fun hex => ?_⟩
    have hexQ : (lookupL Q.1.forums fid).isSome = true := by
      rw [forumPresence_structEq hQs fid]
      exact hex
    refine ⟨by rw [setForumRC_rcF Q.1 fid Q.2 hexQ, hQ2], ?_⟩
    rw [corr_succ_eq]
    refine ⟨?_, fun tid hm => ?_, fun sf hm => ?_⟩
    · rw [setForumRC_rcF Q.1 fid Q.2 hexQ]
      exact hQ2.trans (subtreeReplies_structEq (structEq_symm hstRes) N fid)
    · have hm' : tid ∈ threadIds s fid := by
        rw [← threadIds_structEq hstRes fid]
        exact hm
      rw [setForumRC_rcT, B.2.2 tid hm']
      exact countReplies_structEq (structEq_symm hstRes) tid
    · have hm' : sf ∈ subforumIds s fid := by
        rw [← subforumIds_structEq hstRes fid]
        exact hm
      have hc1 : corr N fuel Q.1 sf :=
        corr_of_canonRel N fuel P.1 Q.1 sf B.1 (A.2.2 sf hm')
      exact corr_of_canonRel N fuel Q.1 _ sf hcanonSet hc1

theorem lookupL_of_mem_nodup {α : Type} (l : List (Nat × α)) (p : Nat × α)
    (hm : p ∈ l) (hnd : (l.map (fun q => q.1)).Nodup) :
    lookupL l p.1 = some p.2 := by
  induction l with
  | nil => exact nomatch hm
  | cons q l ih =>
    simp only [List.map_cons] at hnd
    rcases List.mem_cons.mp hm with rfl | hm'
    · show (if p.1 = p.1 then some p.2 else lookupL l p.1) = some p.2
      rw [if_pos rfl]
    · have hq : q.1 ≠ p.1 := by
        have hnotin : q.1 ∉ l.map (fun q => q.1) := (List.nodup_cons.mp hnd).1
        exact fun hc => hnotin (hc ▸ List.mem_map.mpr ⟨p, hm', rfl⟩)
      show (if q.1 = p.1 then some q.2 else lookupL l p.1) = some p.2
      rw [if_neg hq]
      exact ih hm' (List.nodup_cons.mp hnd).2

theorem updateL_eq_self_of_lookup {α : Type} (l : List (Nat × α)) (k : Nat) (f : α → α)
    (hnd : (l.map (fun q => q.1)).Nodup)
    (h : ∀ a, lookupL l k = some a → f a = a) :
    updateL l k f = l := by
  refine updateL_eq_self l k f (fun p hp hpk => ?_)
  have hl := lookupL_of_mem_nodup l p hp hnd
  rw [hpk] at hl
  exact h p.2 hl

theorem setForumRC_self (s : DB) (fid : Nat)
    (hnd : (s.forums.map (fun p => p.1)).Nodup) :
    setForumRC s fid (rcF s fid) = s := by
  unfold setForumRC
  rw [updateL_eq_self_of_lookup s.forums fid _ hnd (fun a ha => ?_)]
  · show { a with reply_count := rcF s fid } = a
    have hv : rcF s fid = a.reply_count := by
      unfold rcF
      rw [ha]
      rfl
    rw [hv]

theorem thread_update_self (s : DB) (tid : Nat)
    (hnd : (s.threads.map (fun p => p.1)).Nodup)
    (h : rcT s tid = countReplies s tid) :
    Thread.update_reply_count s tid = s := by
  unfold Thread.update_reply_count
  rw [updateL_eq_self_of_lookup s.threads tid _ hnd (fun a ha => ?_)]
  · show { a with reply_count := countReplies s tid } = a
    have hv : countReplies s tid = a.reply_count := by
      rw [← h]
      unfold rcT
      rw [ha]
      rfl
    rw [hv]

theorem accumFold_id (g : DB → Nat → DB) (v : DB → Nat → Int) (s : DB) :
    ∀ (l : List Nat) (c : Int), (∀ x ∈ l, g s x = s) →
      accumFold g v l (s, c) = (s, c + ((l.map (fun x => v s x)).sum)) := by
  intro l
  induction l with
  | nil =>
    intro c _
    rw [accumFold_nil]
    simp
  | cons x l ih =>
    intro c hid
    rw [accumFold_cons]
    have hx : g s x = s := hid x (List.mem_cons_self x l)
    rw [show ((g (s, c).1 x, (s, c).2 + v (g (s, c).1 x) x) : DB × Int)
        = (s, c + v s x) from by rw [hx]]
    rw [ih (c + v s x) (fun y hy => hid y (List.mem_cons_of_mem x hy))]
    simp only [List.map_cons, List.sum_cons, add_assoc]

/-- On a fully reconciled subtree (`corr`), `Forum.update_reply_count`
rewrites every counter with the value it already holds, so it is the
identity on the whole state. -/
theorem forum_update_of_corr (N : Nat) :
    ∀ fuel, fuel ≤ N → ∀ s fid,
      subtreeDepthOk fuel s fid = true →
      corr N fuel s fid →
      (s.forums.map (fun p => p.1)).Nodup →
      (s.threads.map (fun p => p.1)).Nodup →
      Forum.update_reply_count fuel s fid = s := by
  intro fuel
  induction fuel with
  | zero => intro _ s fid _ _ _ _; rfl
  | succ fuel ih =>
    intro hle s fid hd hcorr hndF hndT
    rw [corr_succ_eq] at hcorr
    obtain ⟨hA, hB, hC⟩ := hcorr
    have hds : ∀ sf ∈ subforumIds s fid, subtreeDepthOk fuel s sf = true := by
      rw [subtreeDepthOk_succ_eq] at hd
      exact fun sf hm => List.all_eq_true.mp hd sf hm
    have hidF : ∀ sf ∈ subforumIds s fid, Forum.update_reply_count fuel s sf = s :=
      fun sf hm => ih (by omega) s sf (hds sf hm) (hC sf hm) hndF hndT
    have hidT : ∀ tid ∈ threadIds s fid, Thread.update_reply_count s tid = s :=
      fun tid hm => thread_update_self s tid hndT (hB tid hm)
    have hrcFs : ∀ sf ∈ subforumIds s fid, rcF s sf = subtreeReplies N s sf := by
      intro sf hm
      cases fuel with
      | zero => exact nomatch (hds sf hm)
      | succ m =>
        have hc := hC sf hm
        rw [corr_succ_eq] at hc
        exact hc.1
    rw [forum_update_succ_eq]
    rw [accumFold_id (Forum.update_reply_count fuel) rcF s (subforumIds s fid) 0 hidF]
    have e2 : accumFold Thread.update_reply_count rcT
        (threadIds ((s, (0 : Int) + ((subforumIds s fid).map (fun x => rcF s x)).sum)
          : DB × Int).1 fid)
        (s, (0 : Int) + ((subforumIds s fid).map (fun x => rcF s x)).sum)
        = (s, ((0 : Int) + ((subforumIds s fid).map (fun x => rcF s x)).sum)
            + ((threadIds s fid).map (fun x => rcT s x)).sum) :=
      accumFold_id Thread.update_reply_count rcT s (threadIds s fid) _ hidT
    rw [e2]
    show setForumRC s fid
        (((0 : Int) + ((subforumIds s fid).map (fun x => rcF s x)).sum)
          + ((threadIds s fid).map (fun x => rcT s x)).sum) = s
    have hval : ((0 : Int) + ((subforumIds s fid).map (fun x => rcF s x)).sum)
        + ((threadIds s fid).map (fun x => rcT s x)).sum = rcF s fid := by
      rw [List.map_congr_left hrcFs, List.map_congr_left hB, hA,
          subtreeReplies_succ_stable N fuel s fid hle hd]
      ring
    rw [hval]
    exact setForumRC_self s fid hndF

/-- C2: from any prior state of the denormalized counters (arbitrary
drift), one run of `Forum.update_reply_count` stores in the forum the true
number of reply rows under its full subtree (its threads and, recursively,
all subforums' threads), and running it a second time immediately after
returns the state completely unchanged (idempotence).  Hypotheses: the
forum row exists, primary keys are unique, and the subforum tree below it
is acyclic with depth below the fuel. -/
theorem update_reply_count_reconciles (fuel : Nat) (s : DB) (fid : Nat)
    (hd : subtreeDepthOk fuel s fid = true)
    (hex : (lookupL s.forums fid).isSome = true)
    (hndF : (s.forums.map (fun p => p.1)).Nodup)
    (hndT : (s.threads.map (fun p => p.1)).Nodup) :
    rcF (Forum.update_reply_count fuel s fid) fid = subtreeReplies fuel s fid
    ∧ Forum.update_reply_count fuel (Forum.update_reply_count fuel s fid) fid
      = Forum.update_reply_count fuel s fid := by
  have M := forum_update_master fuel fuel (le_refl fuel) s fid hd
  have Mv := M.2 hex
  refine ⟨Mv.1, ?_⟩
  have hst : StructEq (Forum.update_reply_count fuel s fid) s := M.1.1
  have hd' : subtreeDepthOk fuel (Forum.update_reply_count fuel s fid) fid = true := by
    rw [subtreeDepthOk_structEq hst fuel fid]
    exact hd
  have hndF' : ((Forum.update_reply_count fuel s fid).forums.map (fun p => p.1)).Nodup := by
    rw [keysF_structEq hst]
    exact hndF
  have hndT' : ((Forum.update_reply_count fuel s fid).threads.map (fun p => p.1)).Nodup := by
    rw [keysT_structEq hst]
    exact hndT
  exact forum_update_of_corr fuel fuel (le_refl fuel) _ fid hd' Mv.2 hndF' hndT'

/-- Example drifted rows: stored reply counts 7 and 99 are wrong. -/
def driftForum1 : Forum := { parent := none, last_modified := 0, last_reply := none, view_count := 0, reply_count := 7 }

/-- Example drifted subforum of forum 1 with stored reply count 99. -/
def driftForum2 : Forum := { parent := some 1, last_modified := 0, last_reply := none, view_count := 0, reply_count := 99 }

/-- Example drifted thread of forum 2 with stored reply count 5; it truly
has 2 replies. -/
def driftThread : Thread := { forum := 2, author := 5, created := 0, last_modified := 0, last_reply := none, view_count := 0, reply_count := 5, subscriber_count := 0 }

/-- Example database with drifted counters: the true reply total under
forum 1 is 2. -/
def driftDB : DB := { forums := [(1, driftForum1), (2, driftForum2)], threads := [(10, driftThread)], replies := [⟨100, 10, 5, 1⟩, ⟨101, 10, 6, 2⟩], subs := [], postCounts := [] }

theorem update_reply_count_reconciles_witness :
    rcF (Forum.update_reply_count 3 driftDB 1) 1 = subtreeReplies 3 driftDB 1
    ∧ Forum.update_reply_count 3 (Forum.update_reply_count 3 driftDB 1) 1
      = Forum.update_reply_count 3 driftDB 1 :=
  update_reply_count_reconciles 3 driftDB 1 (by decide) (by decide) (by decide) (by decide)

/-- Modelled from the spec: the row-level `last_modified`/`last_reply`
touch that §4.1 says `recordNewThread` applies along the forum chain (the
thread-creation view code in `agora/views.py` is not among the sources). -/
def touch1 (ts : Int) (lr : Option Nat) (f : Forum) : Forum :=
  { f with last_modified := ts, last_reply := lr }

/-- Modelled from the spec: write the touch into one forum row. -/
def touchForum (s : DB) (fid : Nat) (ts : Int) (lr : Option Nat) : DB :=
  { s with forums := updateL s.forums fid (touch1 ts lr) }

/-- Modelled from the spec: the upward walk of the thread-creation touch
(§4.1: the same parent-chain walk as the reply path, but only touching
`last_modified`/`last_reply`, no counter changes). -/
def forumTouch : Nat → DB → Nat → Int → Option Nat → DB
  | 0, s, _, _, _ => s
  | fuel+1, s, fid, ts, lr =>
    match lookupL s.forums fid with
    | none => s
    | some f =>
      match f.parent with
      | none => touchForum s fid ts lr
      | some pr => forumTouch fuel (touchForum s fid ts lr) pr ts lr

/-- Modelled from the spec: `recordNewThread(thread)` (§4.1, §4.3) —
missing from the sources (it lives in `agora/views.py`): insert the new
thread row with its creation defaults, propagate the
`last_modified`/`last_reply` touch up the owning forum's ancestor chain
via the same upward walk as the reply path, and do not modify
`UserPostCount`. -/
def recordNewThread (fuel : Nat) (s : DB) (tid : Nat) (t : Thread) : DB :=
  forumTouch fuel { s with threads := (tid, t) :: s.threads } t.forum t.created t.last_reply

theorem touchForum_parentsOf (s : DB) (fid : Nat) (ts : Int) (lr : Option Nat) :
    parentsOf (touchForum s fid ts lr) = parentsOf s :=
  updateL_map_shape s.forums fid (touch1 ts lr) Forum.parent (fun _ => rfl)

theorem forumTouch_succ_eq (fuel : Nat) (s : DB) (fid : Nat) (ts : Int) (lr : Option Nat) :
    forumTouch (fuel + 1) s fid ts lr =
      (match lookupL s.forums fid with
       | none => s
       | some f =>
         match f.parent with
         | none => touchForum s fid ts lr
         | some pr => forumTouch fuel (touchForum s fid ts lr) pr ts lr) := rfl

theorem forumTouch_missing (fuel : Nat) (s : DB) (fid : Nat) (ts : Int) (lr : Option Nat)
    (hf : lookupL s.forums fid = none) : forumTouch (fuel + 1) s fid ts lr = s := by
  rw [forumTouch_succ_eq, hf]

theorem forumTouch_root (fuel : Nat) (s : DB) (fid : Nat) (ts : Int) (lr : Option Nat)
    (f : Forum) (hf : lookupL s.forums fid = some f) (hp : f.parent = none) :
    forumTouch (fuel + 1) s fid ts lr = touchForum s fid ts lr := by
  rw [forumTouch_succ_eq, hf]
  show (match f.parent with
        | none => touchForum s fid ts lr
        | some pr => forumTouch fuel (touchForum s fid ts lr) pr ts lr) = _
  rw [hp]

theorem forumTouch_parent (fuel : Nat) (s : DB) (fid : Nat) (ts : Int) (lr : Option Nat)
    (f : Forum) (pr : Nat) (hf : lookupL s.forums fid = some f) (hp : f.parent = some pr) :
    forumTouch (fuel + 1) s fid ts lr = forumTouch fuel (touchForum s fid ts lr) pr ts lr := by
  rw [forumTouch_succ_eq, hf]
  show (match f.parent with
        | none => touchForum s fid ts lr
        | some pr => forumTouch fuel (touchForum s fid ts lr) pr ts lr) = _
  rw [hp]

theorem forum_touch_walk (fuel : Nat) (s : DB) (f0 : Nat) (ts : Int) (lr : Option Nat)
    (l : List Nat) (hc : forumChain fuel s f0 = some l) (hnd : l.Nodup) :
    (∀ fid ∈ l, lookupL (forumTouch fuel s f0 ts lr).forums fid
        = (lookupL s.forums fid).map (touch1 ts lr))
    ∧ (∀ fid, fid ∉ l →
        lookupL (forumTouch fuel s f0 ts lr).forums fid = lookupL s.forums fid)
    ∧ (forumTouch fuel s f0 ts lr).threads = s.threads
    ∧ (forumTouch fuel s f0 ts lr).postCounts = s.postCounts := by
  induction fuel generalizing s f0 l with
  | zero => exact nomatch hc
  | succ fuel ih =>
    cases h1 : lookupL s.forums f0 with
    | none => rw [forumChain_missing fuel s f0 h1] at hc; exact nomatch hc
    | some f =>
      cases hp : f.parent with
      | none =>
        rw [forumChain_root fuel s f0 f h1 hp] at hc
        obtain rfl : [f0] = l := Option.some.inj hc
        rw [forumTouch_root fuel s f0 ts lr f h1 hp]
        refine ⟨fun fid hfid => ?_, fun fid hfid => ?_, rfl, rfl⟩
        · obtain rfl : fid = f0 := List.mem_singleton.mp hfid
          show lookupL (updateL s.forums fid (touch1 ts lr)) fid = _
          exact lookupL_updateL_self _ _ _
        · have hne : fid ≠ f0 := fun hc' => hfid (hc' ▸ List.mem_singleton_self f0)
          show lookupL (updateL s.forums f0 (touch1 ts lr)) fid = _
          exact lookupL_updateL_ne _ _ _ _ hne
      | some pr =>
        rw [forumChain_parent fuel s f0 f pr h1 hp] at hc
        cases hrest : forumChain fuel s pr with
        | none => rw [hrest] at hc; exact nomatch hc
        | some rest =>
          rw [hrest] at hc
          obtain rfl : f0 :: rest = l := Option.some.inj hc
          rw [forumTouch_parent fuel s f0 ts lr f pr h1 hp]
          have hndc := List.nodup_cons.mp hnd
          have hchain1 : forumChain fuel (touchForum s f0 ts lr) pr = some rest := by
            rw [forumChain_congr fuel (touchForum s f0 ts lr) s
              (touchForum_parentsOf s f0 ts lr) pr, hrest]
          have IH := ih (touchForum s f0 ts lr) pr rest hchain1 hndc.2
          refine ⟨fun fid hfid => ?_, fun fid hfid => ?_, IH.2.2.1, IH.2.2.2⟩
          · rcases List.mem_cons.mp hfid with rfl | hfm
            · rw [IH.2.1 fid hndc.1]
              show lookupL (updateL s.forums fid (touch1 ts lr)) fid = _
              exact lookupL_updateL_self _ _ _
            · rw [IH.1 fid hfm]
              have hne : fid ≠ f0 := fun hc' => hndc.1 (hc' ▸ hfm)
              show (lookupL (updateL s.forums f0 (touch1 ts lr)) fid).map (touch1 ts lr) = _
              rw [lookupL_updateL_ne _ _ _ _ hne]
          · have hne : fid ≠ f0 := fun hc' => hfid (hc' ▸ List.mem_cons_self f0 rest)
            have hnr : fid ∉ rest := fun hm => hfid (List.mem_cons_of_mem _ hm)
            rw [IH.2.1 fid hnr]
            show lookupL (updateL s.forums f0 (touch1 ts lr)) fid = _
            exact lookupL_updateL_ne _ _ _ _ hne

/-- C4: the thread-creation path (`recordNewThread`, modelled from the
spec because the view code is not among the sources) applies the
`last_modified`/`last_reply` touch to the owning forum and to every
ancestor on the same upward parent-chain walk the reply path uses, and
does not modify the author's `UserPostCount` table (or any other
post-count row). -/
theorem record_new_thread_touch (fuel : Nat) (s : DB) (tid : Nat) (t : Thread)
    (l : List Nat) (hc : forumChain fuel s t.forum = some l) (hnd : l.Nodup) :
    (∀ fid ∈ l, lookupL (recordNewThread fuel s tid t).forums fid
        = (lookupL s.forums fid).map (touch1 t.created t.last_reply))
    ∧ (∀ fid, fid ∉ l →
        lookupL (recordNewThread fuel s tid t).forums fid = lookupL s.forums fid)
    ∧ (recordNewThread fuel s tid t).postCounts = s.postCounts
    ∧ (recordNewThread fuel s tid t).threads = (tid, t) :: s.threads := by
  unfold recordNewThread
  have hc' : forumChain fuel { s with threads := (tid, t) :: s.threads } t.forum = some l := by
    rw [forumChain_congr fuel { s with threads := (tid, t) :: s.threads } s rfl t.forum, hc]
  have W := forum_touch_walk fuel { s with threads := (tid, t) :: s.threads } t.forum
    t.created t.last_reply l hc' hnd
  exact ⟨fun fid hm => W.1 fid hm, fun fid hm => W.2.1 fid hm, W.2.2.2, W.2.2.1⟩

/-- Example thread row to be created in forum 2. -/
def exNewThread : Thread := { forum := 2, author := 7, created := 3, last_modified := 3, last_reply := none, view_count := 0, reply_count := 0, subscriber_count := 0 }

theorem record_new_thread_touch_witness :
    (∀ fid ∈ [2, 1], lookupL (recordNewThread 3 exDB 11 exNewThread).forums fid
        = (lookupL exDB.forums fid).map (touch1 exNewThread.created exNewThread.last_reply))
    ∧ (∀ fid, fid ∉ [2, 1] →
        lookupL (recordNewThread 3 exDB 11 exNewThread).forums fid = lookupL exDB.forums fid)
    ∧ (recordNewThread 3 exDB 11 exNewThread).postCounts = exDB.postCounts
    ∧ (recordNewThread 3 exDB 11 exNewThread).threads = (11, exNewThread) :: exDB.threads :=
  record_new_thread_touch 3 exDB 11 exNewThread [2, 1] (by decide) (by decide)

/-- An activity event handed to the external sink (`issue_update`,
models.py 12-14, a documented no-op stub in this repository). -/
inductive ActivityEvent
  | forum_post (user : Nat) (post : Nat)
  | forum_thread (user : Nat) (thread : Nat)
deriving Repr, DecidableEq

/-- Modelled from the spec: the reply-creation user action (§4.1 step 4;
the call site lives in `agora/views.py`, not among the sources): persist
the reply row (which fires `forum_reply_save`) and, because a reply is not
a thread-opening post, emit exactly the `forum_post` event to the sink. -/
def createReplyAction (fuel : Nat) (s : DB) (r : Reply) : DB × List ActivityEvent :=
  (forum_reply_save fuel { s with replies := r :: s.replies } r,
    [ActivityEvent.forum_post r.author r.id])

/-- Modelled from the spec: the thread-creation user action (§4.1, §6):
run `recordNewThread` and emit exactly the `forum_thread` event; no
`forum_post` event is emitted for the thread-opening post. -/
def createThreadAction (fuel : Nat) (s : DB) (tid : Nat) (t : Thread) :
    DB × List ActivityEvent :=
  (recordNewThread fuel s tid t, [ActivityEvent.forum_thread t.author tid])

/-- C5: each user action emits exactly one notification: a reply creation
emits exactly the single event `forum_post (author, post)` and never a
`forum_thread` event; a thread creation emits exactly the single event
`forum_thread (author, thread)` and never a `forum_post` event; no action
emits both. -/
theorem one_notification_per_action (fuel : Nat) (s : DB) (r : Reply) (tid : Nat)
    (t : Thread) :
    (createReplyAction fuel s r).2 = [ActivityEvent.forum_post r.author r.id]
    ∧ (createThreadAction fuel s tid t).2 = [ActivityEvent.forum_thread t.author tid]
    ∧ (createReplyAction fuel s r).2.length = 1
    ∧ (createThreadAction fuel s tid t).2.length = 1
    ∧ (∀ u th, ActivityEvent.forum_thread u th ∉ (createReplyAction fuel s r).2)
    ∧ (∀ u p, ActivityEvent.forum_post u p ∉ (createThreadAction fuel s tid t).2) := by
  refine ⟨rfl, rfl, rfl, rfl, fun u th hm => ?_, fun u p hm => ?_⟩
  · exact nomatch List.mem_singleton.mp hm
  · exact nomatch List.mem_singleton.mp hm

end Agora
